import Mathlib

/-!
# Leafora admin server: the user record model and its subscription transitions

A shallow embedding of `src/models/userModel.js` (class `UserModel`) and of the
route handlers of `src/index.js` that drive it, followed by theorems about them.

Modelling conventions.

* JavaScript values are the inductive type `JSVal`.  Numbers are modelled by `Int`
  (the source never does arithmetic on record fields); strings are Lean strings,
  whose length in UTF-16 code units is computed by `utf16Length`.
* An object literal or JSON body is an association list `Obj`; the first binding of a
  key is the live one, so the spread `{...a, ...b}` is `b ++ a`.
* A `Date` is its time value: `some ms` (milliseconds since the epoch, UTC) or `none`
  for an Invalid Date.  Every time value a `Date` operation computes passes through
  `timeClip`, which turns a value beyond 8.64e15 milliseconds into an Invalid Date.
* Each evaluation of `new Date()` is an explicit argument of the function that
  performs it, in program order; it is the reading of the clock, a valid time value.
* What ECMAScript leaves to the host (`Date.parse`, the local time zone, the string
  forms of `Date` and of Firestore `Timestamp` objects) is a field of `Runtime`.
* A thrown exception is the `Except.error` result of the function.
-/

namespace Leafora

/-! ## JavaScript values -/

/-- The JavaScript values the model distinguishes.  `date t` is a `Date` object with
time value `t` (`none` for an Invalid Date); `timestamp ms` is a Firestore `Timestamp`
object whose `toDate()` is the `Date` with time value `ms`. -/
inductive JSVal where
  | undefined
  | null
  | bool (b : Bool)
  | num (n : Int)
  | str (s : String)
  | arr (xs : List JSVal)
  | obj (kvs : List (String × JSVal))
  | date (t : Option Int)
  | timestamp (ms : Int)

/-- A plain object: an association list whose first binding of a key is the live one. -/
abbrev Obj := List (String × JSVal)

/-- The exceptions the modelled code can throw. -/
inductive JSError where
  | typeError
  | rangeError
  deriving DecidableEq

namespace JSVal

/-- ToBoolean: `undefined`, `null`, `false`, `0` and `""` are falsy, all else truthy. -/
def truthy : JSVal → Bool
  | undefined => false
  | null => false
  | bool b => b
  | num n => n != 0
  | str s => s != ""
  | _ => true

/-- The expression `a || b`. -/
def or (a b : JSVal) : JSVal := if a.truthy then a else b

/-- The test `typeof v === 'string'`. -/
def isString : JSVal → Bool
  | str _ => true
  | _ => false

/-- The test `v === s` against a string literal `s` (also the membership test of
`Array.prototype.includes` against an array of string literals). -/
def eqStr (v : JSVal) (s : String) : Bool :=
  match v with
  | str t => t == s
  | _ => false

/-- The test `v !== undefined`. -/
def isDefined : JSVal → Bool
  | undefined => false
  | _ => true

end JSVal

/-- Property read `o[k]`: the value of the first binding of `k`, `undefined` if none. -/
def Obj.get (o : Obj) (k : String) : JSVal :=
  match o.lookup k with
  | some v => v
  | none => JSVal.undefined

/-! ## Strings -/

/-- The characters removed by `String.prototype.trim` and matched by `\s`:
ECMAScript WhiteSpace and LineTerminator. -/
def isJSWhitespace (c : Char) : Bool :=
  let n := c.toNat
  n == 0x09 || n == 0x0A || n == 0x0B || n == 0x0C || n == 0x0D || n == 0x20 ||
  n == 0xA0 || n == 0x1680 || (0x2000 ≤ n && n ≤ 0x200A) || n == 0x2028 ||
  n == 0x2029 || n == 0x202F || n == 0x205F || n == 0x3000 || n == 0xFEFF

/-- The value of `s.trim()`, on the character list of `s`. -/
def jsTrim (cs : List Char) : List Char :=
  ((cs.dropWhile isJSWhitespace).reverse.dropWhile isJSWhitespace).reverse

/-- The value of `s.length`: the number of UTF-16 code units of `s`. -/
def utf16Length : List Char → Nat
  | [] => 0
  | c :: cs => (if c.toNat < 0x10000 then 1 else 2) + utf16Length cs

/-- The value of `v.trim().length`; a `TypeError` when `v` has no `trim` method. -/
def trimLength : JSVal → Except JSError Nat
  | .str s => .ok (utf16Length (jsTrim s.data))
  | _ => .error .typeError

/-! ## Dates

Time values are milliseconds since 1970-01-01T00:00:00Z.  The calendar functions are
those of ECMAScript (`Day`, `TimeWithinDay`, `YearFromTime`, `MonthFromTime`,
`DateFromTime`, `MakeDay`, `MakeDate`), written in closed form. -/

/-- Milliseconds per day. -/
def msPerDay : Int := 86400000

/-- The day number of a time value: `floor (t / msPerDay)`. -/
def dayOf (t : Int) : Int := Int.fdiv t msPerDay

/-- The milliseconds elapsed within the day of a time value. -/
def timeWithinDay (t : Int) : Int := Int.fmod t msPerDay

/-- The proleptic Gregorian date `(year, month, day)` of a day number, the month
counted from 0 as `getMonth` does and the day of the month from 1. -/
def civilOfDay (z : Int) : Int × Int × Int :=
  let z := z + 719468
  let era := Int.fdiv z 146097
  let doe := z - era * 146097
  let yoe := Int.fdiv (doe - Int.fdiv doe 1460 + Int.fdiv doe 36524 - Int.fdiv doe 146096) 365
  let doy := doe - (365 * yoe + Int.fdiv yoe 4 - Int.fdiv yoe 100)
  let mp := Int.fdiv (5 * doy + 2) 153
  let d := doy - Int.fdiv (153 * mp + 2) 5 + 1
  let m := if mp < 10 then mp + 3 else mp - 9
  let y := yoe + era * 400
  (if m ≤ 2 then y + 1 else y, m - 1, d)

/-- The day number of the first day of month `m` (from 0, any integer) of year `y`,
plus `d - 1`: ECMAScript `MakeDay (y, m, d)`, which lets the month and the day of the
month overflow into the following months. -/
def makeDay (y m d : Int) : Int :=
  let ym := y + Int.fdiv m 12
  let mn := Int.fmod m 12
  let y1 := if mn ≤ 1 then ym - 1 else ym
  let era := Int.fdiv y1 400
  let yoe := y1 - era * 400
  let mp := if mn ≤ 1 then mn + 10 else mn - 2
  let doy := Int.fdiv (153 * mp + 2) 5
  let doe := yoe * 365 + Int.fdiv yoe 4 - Int.fdiv yoe 100 + doy
  era * 146097 + doe - 719468 + d - 1

/-- ECMAScript `MakeDate (day, time)`. -/
def makeDate (day time : Int) : Int := day * msPerDay + time

/-- ECMAScript `TimeClip`: a time value beyond 8.64e15 milliseconds on either side of the
epoch is no time value (`NaN`). -/
def timeClip (t : Int) : Option Int :=
  if -8640000000000000 ≤ t ∧ t ≤ 8640000000000000 then some t else none

/-- The decimal digit `n % 10` as a character. -/
def digitChar (n : Nat) : Char := Char.ofNat (48 + n % 10)

/-- The last `k` decimal digits of `n`, padded with zeros on the left. -/
def padDigits : Nat → Nat → List Char
  | 0, _ => []
  | k + 1, n => padDigits k (n / 10) ++ [digitChar n]

/-- The year part of `toISOString`: four digits for the years 0 to 9999, otherwise a
sign and six digits. -/
def isoYear (y : Int) : List Char :=
  if 0 ≤ y ∧ y ≤ 9999 then padDigits 4 y.toNat
  else if y < 0 then '-' :: padDigits 6 (-y).toNat
  else '+' :: padDigits 6 y.toNat

/-- The value of `d.toISOString()` for a `Date` with the (valid) time value `t`:
`YYYY-MM-DDTHH:mm:ss.sssZ`, in UTC. -/
def isoString (t : Int) : String :=
  let (y, m, d) := civilOfDay (dayOf t)
  let w := (timeWithinDay t).toNat
  String.mk (isoYear y ++ '-' :: padDigits 2 (m + 1).toNat ++ '-' :: padDigits 2 d.toNat ++
    'T' :: padDigits 2 (w / 3600000) ++ ':' :: padDigits 2 (w / 60000 % 60) ++
    ':' :: padDigits 2 (w / 1000 % 60) ++ '.' :: padDigits 3 (w % 1000) ++ ['Z'])

/-- What ECMAScript and the Firestore client leave to the host. -/
structure Runtime where
  /-- The result of `Date.parse` on a string (`none` for `NaN`). -/
  parse : String → Option Int
  /-- ECMAScript `LocalTime`: the local time of a UTC time value. -/
  toLocal : Int → Int
  /-- ECMAScript `UTC`: the UTC time value of a local time. -/
  ofLocal : Int → Int
  /-- The value of `String(d)` for a `Date` with time value `t`. -/
  dateString : Option Int → String
  /-- The value of `String(ts)` for a Firestore `Timestamp` of `ms` milliseconds. -/
  stampString : Int → String
  /-- The primitive (`valueOf`) form of a Firestore `Timestamp` of `ms` milliseconds. -/
  stampPrimitive : Int → String

mutual
/-- ToString of a value.  Objects are JSON data and carry no own `toString`. -/
def JSVal.toStr (rt : Runtime) : JSVal → String
  | .undefined => "undefined"
  | .null => "null"
  | .bool b => if b then "true" else "false"
  | .num n => toString n
  | .str s => s
  | .arr xs => JSVal.joinStr rt xs
  | .obj _ => "[object Object]"
  | .date t => rt.dateString t
  | .timestamp ms => rt.stampString ms
termination_by structural v => v
/-- The value of `xs.join(",")`: `undefined` and `null` elements give the empty string. -/
def JSVal.joinStr (rt : Runtime) : List JSVal → String
  | [] => ""
  | [.undefined] => ""
  | [.null] => ""
  | [x] => JSVal.toStr rt x
  | .undefined :: xs => "," ++ JSVal.joinStr rt xs
  | .null :: xs => "," ++ JSVal.joinStr rt xs
  | x :: xs => JSVal.toStr rt x ++ "," ++ JSVal.joinStr rt xs
termination_by structural l => l
end

/-- The time value that `new Date(v)` starts from, before it is clipped: a `Date` is
copied, a string is parsed, an array or object is first converted to its primitive (a
string, which is parsed), and any other value is converted to a number. -/
def dateValue (rt : Runtime) : JSVal → Option Int
  | .undefined => none
  | .null => some 0
  | .bool b => some (if b then 1 else 0)
  | .num n => some n
  | .str s => rt.parse s
  | .arr xs => rt.parse (JSVal.joinStr rt xs)
  | .obj _ => rt.parse "[object Object]"
  | .date t => t
  | .timestamp ms => rt.parse (rt.stampPrimitive ms)

/-- The time value of `new Date(v)`: the value derived from `v`, clipped to the range
of time values. -/
def newDate (rt : Runtime) (v : JSVal) : Option Int :=
  (dateValue rt v).bind timeClip

/-- The value of `d.toISOString()`; a `RangeError` on an Invalid Date. -/
def toISOString : Option Int → Except JSError String
  | some t => .ok (isoString t)
  | none => .error .rangeError

/-- The value of `d.getMonth()` (local time), `none` for `NaN`. -/
def getMonth (rt : Runtime) (d : Option Int) : Option Int :=
  d.map fun t => (civilOfDay (dayOf (rt.toLocal t))).2.1

/-- The value of `d.getFullYear()` (local time), `none` for `NaN`. -/
def getFullYear (rt : Runtime) (d : Option Int) : Option Int :=
  d.map fun t => (civilOfDay (dayOf (rt.toLocal t))).1

/-- The time value of `d` after `d.setMonth(m)`: the month of the local date is
replaced, the day of the month and the time of day are kept, and the result is clipped
to the range of time values. -/
def setMonth (rt : Runtime) (d : Option Int) (m : Option Int) : Option Int :=
  match d, m with
  | some t, some m =>
    let l := rt.toLocal t
    let c := civilOfDay (dayOf l)
    timeClip (rt.ofLocal (makeDate (makeDay c.1 m c.2.2) (timeWithinDay l)))
  | _, _ => none

/-- The time value of `d` after `d.setFullYear(y)`: the year of the local date is
replaced and the result is clipped to the range of time values.  On an Invalid Date the
date is rebuilt from the time value `+0`. -/
def setFullYear (rt : Runtime) (d : Option Int) (y : Option Int) : Option Int :=
  match y with
  | none => none
  | some y =>
    let l := match d with
      | some t => rt.toLocal t
      | none => 0
    let c := civilOfDay (dayOf l)
    timeClip (rt.ofLocal (makeDate (makeDay y c.2.1 c.2.2) (timeWithinDay l)))

/-- The number written by a list of decimal digits, `none` if a character is no digit. -/
def isoDigits (cs : List Char) : Option Nat :=
  cs.foldl (fun acc c => acc.bind fun n =>
    if c.isDigit then some (10 * n + (c.toNat - 48)) else none) (some 0)

/-- A `Date.parse` that reads exactly the strings `toISOString` writes for the years
0000 to 9999 (`YYYY-MM-DDTHH:mm:ss.sssZ`) and rejects every other string. -/
def isoParse (s : String) : Option Int :=
  let cs := s.data
  let field (i k : Nat) : Option Int := (isoDigits ((cs.drop i).take k)).map Int.ofNat
  match field 0 4, field 5 2, field 8 2, field 11 2, field 14 2, field 17 2, field 20 3 with
  | some y, some mo, some d, some h, some mi, some sec, some ms =>
    let t := makeDate (makeDay y (mo - 1) d) (h * 3600000 + mi * 60000 + sec * 1000 + ms)
    if isoString t = s then some t else none
  | _, _, _, _, _, _, _ => none

/-- A host in the UTC time zone with `isoParse` for `Date.parse`; it is used to evaluate
the model on concrete inputs. -/
def isoRuntime : Runtime where
  parse := isoParse
  toLocal := fun t => t
  ofLocal := fun t => t
  dateString := fun t =>
    match t with
    | some ms => "Date " ++ isoString ms
    | none => "Invalid Date"
  stampString := fun _ => "[object Object]"
  stampPrimitive := fun ms => "Timestamp " ++ isoString ms

/-! ## The e-mail pattern -/

/-- The character classes the pattern `/^[^\s@]+@[^\s@]+\.[^\s@]+$/` tells apart. -/
inductive EmailSym where
  | space
  | at
  | dot
  | other
  deriving DecidableEq

/-- The class of a character: `\s`, `@`, `.` or any other character. -/
def classify (c : Char) : EmailSym :=
  if isJSWhitespace c then .space
  else if c = '@' then .at
  else if c = '.' then .dot
  else .other

/-- The class `[^\s@]`: a dot or any other character that is neither white space nor `@`. -/
def notSpaceAt : RegularExpression EmailSym :=
  .plus (.char .dot) (.char .other)

/-- The iteration `P+`: one or more times `P`. -/
def oneOrMore (P : RegularExpression EmailSym) : RegularExpression EmailSym :=
  .comp P (.star P)

/-- The pattern `emailRegex` of `isValidEmail`, `/^[^\s@]+@[^\s@]+\.[^\s@]+$/`; the
anchors make `test` a match of the whole string. -/
def emailRegex : RegularExpression EmailSym :=
  .comp (oneOrMore notSpaceAt) (.comp (.char .at) (.comp (oneOrMore notSpaceAt)
    (.comp (.char .dot) (oneOrMore notSpaceAt))))

/-- The value of `emailRegex.test(s)` on a string. -/
def emailRegexTest (s : String) : Bool :=
  emailRegex.rmatch (s.data.map classify)

/-- The method `isValidEmail(email)`: `test` converts its argument to a string. -/
def isValidEmail (rt : Runtime) (email : JSVal) : Bool :=
  emailRegexTest (email.toStr rt)

/-! ## The user record -/

/-- An instance of class `UserModel`: its own properties, in the order the constructor
assigns them. -/
structure UserModel where
  userName : JSVal
  userId : JSVal
  userImage : JSVal
  userEmail : JSVal
  userPhone : JSVal
  userAddress : JSVal
  gender : JSVal
  dob : JSVal
  plan : JSVal
  status : JSVal
  otp : JSVal
  fcmToken : JSVal
  role : JSVal
  isOnline : JSVal
  lastActive : JSVal
  about : JSVal
  credits : JSVal
  lastCreditReset : JSVal
  selectedPaymentMethods : JSVal
  paymentHistory : JSVal
  notification : JSVal
  bookmarks : JSVal
  myPlants : JSVal
  diagnosisHistory : JSVal
  postArticle : JSVal
  subscriptionStatus : JSVal
  subscriptionStartDate : JSVal
  subscriptionEndDate : JSVal
  subscriptionType : JSVal
  autoRenewal : JSVal
  createdAt : JSVal
  updatedAt : JSVal

namespace UserModel

/-- The constructor `new UserModel(data)`.  `tc` and `tu` are the readings of the clock
taken by the two `new Date()` of the defaults of `createdAt` and `updatedAt`, which are
evaluated only when the supplied value is falsy. -/
def constructor (data : Obj) (tc tu : Int) : UserModel :=
  {
    userName := (data.get "userName").or (.null),
    userId := (data.get "userId").or (.null),
    userImage := (data.get "userImage").or (.null),
    userEmail := (data.get "userEmail").or (.null),
    userPhone := (data.get "userPhone").or (.null),
    userAddress := (data.get "userAddress").or (.null),
    gender := (data.get "gender").or (.null),
    dob := (data.get "dob").or (.null),
    plan := (data.get "plan").or (.str "basic"),
    status := (data.get "status").or (.str "unverified"),
    otp := (data.get "otp").or (.null),
    fcmToken := (data.get "fcmToken").or (.null),
    role := (data.get "role").or (.str "user"),
    isOnline := (data.get "isOnline").or (.str "false"),
    lastActive := (data.get "lastActive").or (.null),
    about := (data.get "about").or (.str ""),
    credits := (data.get "credits").or (.num 0),
    lastCreditReset := (data.get "lastCreditReset").or (.null),
    selectedPaymentMethods := (data.get "selectedPaymentMethods").or (.arr []),
    paymentHistory := (data.get "paymentHistory").or (.arr []),
    notification := (data.get "notification").or (.arr []),
    bookmarks := (data.get "bookmarks").or (.arr []),
    myPlants := (data.get "myPlants").or (.arr []),
    diagnosisHistory := (data.get "diagnosisHistory").or (.arr []),
    postArticle := (data.get "postArticle").or (.arr []),
    subscriptionStatus := (data.get "subscriptionStatus").or (.str "inactive"),
    subscriptionStartDate := (data.get "subscriptionStartDate").or (.null),
    subscriptionEndDate := (data.get "subscriptionEndDate").or (.null),
    subscriptionType := (data.get "subscriptionType").or (.null),
    autoRenewal := (data.get "autoRenewal").or (.bool false),
    createdAt := (data.get "createdAt").or (.str (isoString tc)),
    updatedAt := (data.get "updatedAt").or (.str (isoString tu)) }

/-- The constructor called without an argument, `new UserModel()`: the parameter
default `data = {}` applies. -/
def constructDefault (tc tu : Int) : UserModel := constructor [] tc tu

/-- The own properties of a record as an object: the value of `{ ...this }`. -/
def toObj (r : UserModel) : Obj :=
  [
   ("userName", r.userName),
   ("userId", r.userId),
   ("userImage", r.userImage),
   ("userEmail", r.userEmail),
   ("userPhone", r.userPhone),
   ("userAddress", r.userAddress),
   ("gender", r.gender),
   ("dob", r.dob),
   ("plan", r.plan),
   ("status", r.status),
   ("otp", r.otp),
   ("fcmToken", r.fcmToken),
   ("role", r.role),
   ("isOnline", r.isOnline),
   ("lastActive", r.lastActive),
   ("about", r.about),
   ("credits", r.credits),
   ("lastCreditReset", r.lastCreditReset),
   ("selectedPaymentMethods", r.selectedPaymentMethods),
   ("paymentHistory", r.paymentHistory),
   ("notification", r.notification),
   ("bookmarks", r.bookmarks),
   ("myPlants", r.myPlants),
   ("diagnosisHistory", r.diagnosisHistory),
   ("postArticle", r.postArticle),
   ("subscriptionStatus", r.subscriptionStatus),
   ("subscriptionStartDate", r.subscriptionStartDate),
   ("subscriptionEndDate", r.subscriptionEndDate),
   ("subscriptionType", r.subscriptionType),
   ("autoRenewal", r.autoRenewal),
   ("createdAt", r.createdAt),
   ("updatedAt", r.updatedAt)]

/-- The method `toFirestore()`; `now` is the reading of the clock taken by its
`new Date()`.  The result is the object handed to the store. -/
def toFirestore (rt : Runtime) (r : UserModel) (now : Int) : Obj :=
  let data := r
  let data :=
    if r.lastCreditReset.truthy && r.lastCreditReset.isString then
      { data with lastCreditReset := .date (newDate rt r.lastCreditReset) }
    else data
  let data :=
    if r.subscriptionStartDate.truthy && r.subscriptionStartDate.isString then
      { data with subscriptionStartDate := .date (newDate rt r.subscriptionStartDate) }
    else data
  let data :=
    if r.subscriptionEndDate.truthy && r.subscriptionEndDate.isString then
      { data with subscriptionEndDate := .date (newDate rt r.subscriptionEndDate) }
    else data
  let data := { data with updatedAt := .str (isoString now) }
  data.toObj

end UserModel

/-- A document snapshot: `doc.id` and `doc.data()`. -/
structure Doc where
  id : JSVal
  data : Obj

/-- The expression `v?.toDate?.()?.toISOString()`.  Only a Firestore `Timestamp` has a
callable `toDate`; a value that holds anything else than `undefined` or `null` under
the key `toDate` makes the call throw a `TypeError`. -/
def stampToISO (v : JSVal) : Except JSError JSVal :=
  match v with
  | .timestamp ms => (toISOString (some ms)).map JSVal.str
  | .obj kvs =>
    match Obj.get kvs "toDate" with
    | .undefined => .ok .undefined
    | .null => .ok .undefined
    | _ => .error .typeError
  | _ => .ok .undefined

namespace UserModel

/-- The static method `UserModel.fromFirestore(doc)`; `tc` and `tu` are the clock
readings of the constructor it calls. -/
def fromFirestore (doc : Doc) (tc tu : Int) : Except JSError UserModel := do
  let data := doc.data
  let a ← stampToISO (data.get "lastCreditReset")
  let b ← stampToISO (data.get "subscriptionStartDate")
  let c ← stampToISO (data.get "subscriptionEndDate")
  pure (UserModel.constructor
    ([("userId", doc.id),
      ("lastCreditReset", a.or (data.get "lastCreditReset")),
      ("subscriptionStartDate", b.or (data.get "subscriptionStartDate")),
      ("subscriptionEndDate", c.or (data.get "subscriptionEndDate"))] ++ data) tc tu)

/-- The condition `!v || v.trim().length < k` of the name and phone rules. -/
def tooShort (v : JSVal) (k : Nat) : Except JSError Bool :=
  if !v.truthy then .ok true else (trimLength v).map fun n => decide (n < k)

/-- Appends `msg` to `errors` when the rule failed: `if (failed) errors.push(msg)`. -/
def pushIf (failed : Bool) (msg : String) (errors : List String) : List String :=
  if failed then errors ++ [msg] else errors

/-- The method `validate()`. -/
def validate (rt : Runtime) (r : UserModel) : Except JSError (List String) := do
  let errors : List String := []
  let nameFails ← tooShort r.userName 2
  let errors := pushIf nameFails "User name must be at least 2 characters long" errors
  let emailFails := !r.userEmail.truthy || !isValidEmail rt r.userEmail
  let errors := pushIf emailFails "Valid email is required" errors
  let phoneFails ← tooShort r.userPhone 10
  let errors := pushIf phoneFails "Valid phone number is required" errors
  let errors := pushIf (!(r.role.eqStr "user" || r.role.eqStr "admin" || r.role.eqStr "expert"))
    "Invalid role specified" errors
  let errors := pushIf (!(r.plan.eqStr "basic" || r.plan.eqStr "Pro"))
    "Invalid plan specified" errors
  let errors := pushIf
    (!(r.status.eqStr "verified" || r.status.eqStr "unverified" || r.status.eqStr "suspended"))
    "Invalid status specified" errors
  pure errors

/-- The method `activateSubscription(type, duration)`; `t1`, `t2`, `t3` are the clock
readings of its three `new Date()`, in program order. -/
def activateSubscription (rt : Runtime) (r : UserModel) (type duration : JSVal)
    (t1 t2 t3 : Int) : Except JSError UserModel := do
  let r := { r with subscriptionStatus := .str "active" }
  let r := { r with subscriptionType := type }
  let r := { r with subscriptionStartDate := .str (isoString t1) }
  let endDate : Option Int := some t2
  let endDate :=
    if duration.eqStr "monthly" then
      setMonth rt endDate ((getMonth rt endDate).map fun m => m + 1)
    else if duration.eqStr "yearly" then
      setFullYear rt endDate ((getFullYear rt endDate).map fun y => y + 1)
    else endDate
  let e ← toISOString endDate
  let r := { r with subscriptionEndDate := .str e }
  pure { r with updatedAt := .str (isoString t3) }

/-- The method `cancelSubscription()`; `now` is the clock reading of its `new Date()`. -/
def cancelSubscription (r : UserModel) (now : Int) : UserModel :=
  let r := { r with subscriptionStatus := .str "cancelled" }
  let r := { r with autoRenewal := .bool false }
  { r with updatedAt := .str (isoString now) }

/-- The method `isSubscriptionActive()`; `now` is the clock reading of its `new Date()`.
The result is the returned boolean together with the record after the call. -/
def isSubscriptionActive (rt : Runtime) (r : UserModel) (now : Int) : Bool × UserModel :=
  if !r.subscriptionStatus.eqStr "active" then (false, r)
  else if !r.subscriptionEndDate.truthy then (false, r)
  else
    let endDate := newDate rt r.subscriptionEndDate
    match endDate with
    | some e => (decide (now < e), r)
    | none => (false, r)

end UserModel

/-! ## The route handlers of `index.js`

A handler is modelled from the point where the stored document has been fetched to the
point where it hands a document to the store's `update`; the store itself is external. -/

/-- The outcome of a handler: the 404 response, the 400 response of a failed
validation, the 400 response of an unknown action, the 500 response of the `catch`
block, or the call `update(written)` followed by the 200 response carrying `user`. -/
inductive Response where
  | notFound
  | invalid (errors : List String)
  | invalidAction
  | failed (e : JSError)
  | updated (written : Obj) (user : UserModel)

/-- The `case 'extend'` block of `PUT /admin/users/:userId/subscription`. -/
def extendAction (rt : Runtime) (user : UserModel) (duration : JSVal) :
    Except JSError UserModel :=
  if user.subscriptionEndDate.truthy then do
    let currentEnd := newDate rt user.subscriptionEndDate
    let currentEnd :=
      if duration.eqStr "monthly" then
        setMonth rt currentEnd ((getMonth rt currentEnd).map fun m => m + 1)
      else if duration.eqStr "yearly" then
        setFullYear rt currentEnd ((getFullYear rt currentEnd).map fun y => y + 1)
      else currentEnd
    let e ← toISOString currentEnd
    pure { user with subscriptionEndDate := .str e }
  else pure user

/-- The `switch (action)` of `PUT /admin/users/:userId/subscription`; `none` is the
`default` branch.  `t1`, `t2`, `t3` are the clock readings of the method called. -/
def subscriptionAction (rt : Runtime) (user : UserModel)
    (action type duration autoRenewal : JSVal) (t1 t2 t3 : Int) :
    Except JSError (Option UserModel) :=
  if action.eqStr "activate" then do
    let user ← user.activateSubscription rt type duration t1 t2 t3
    pure (some { user with autoRenewal := autoRenewal.or (.bool false) })
  else if action.eqStr "cancel" then
    pure (some (user.cancelSubscription t1))
  else if action.eqStr "extend" then
    (extendAction rt user duration).map some
  else pure none

/-- The handler of `PUT /admin/users/:userId/subscription`.  `stored` is the fetched
document (`none` when `userDoc.exists` is false), `body` is `req.body`; `tc`, `tu` are
the clock readings of `fromFirestore`, `t1`, `t2`, `t3` those of the action and `tw`
that of `toFirestore`. -/
def subscriptionRoute (rt : Runtime) (stored : Option Doc) (body : Obj)
    (tc tu t1 t2 t3 tw : Int) : Response :=
  match stored with
  | none => .notFound
  | some userDoc =>
    match (do
      let user ← UserModel.fromFirestore userDoc tc tu
      subscriptionAction rt user (body.get "action") (body.get "type")
        (body.get "duration") (body.get "autoRenewal") t1 t2 t3) with
    | .error e => .failed e
    | .ok none => .invalidAction
    | .ok (some user) => .updated (user.toFirestore rt tw) user

/-- The array `allowedFields` of `PUT /users/profile`. -/
def allowedFields : List String :=
  ["userName", "userPhone", "userAddress", "gender", "dob", "about", "userImage"]

/-- The object `filteredUpdateData` built by the `forEach` over `allowedFields`. -/
def filteredUpdateData (updateData : Obj) : Obj :=
  allowedFields.filterMap fun field =>
    if (updateData.get field).isDefined then some (field, updateData.get field) else none

/-- The handler of `PUT /users/profile`; `tc`, `tu` are the clock readings of
`fromFirestore`, `tc2`, `tu2` those of the second constructor call and `tw` that of
`toFirestore`. -/
def profileRoute (rt : Runtime) (stored : Option Doc) (updateData : Obj)
    (tc tu tc2 tu2 tw : Int) : Response :=
  match stored with
  | none => .notFound
  | some userDoc =>
    match UserModel.fromFirestore userDoc tc tu with
    | .error e => .failed e
    | .ok existingUser =>
      let updatedUser :=
        UserModel.constructor (filteredUpdateData updateData ++ existingUser.toObj) tc2 tu2
      .updated (updatedUser.toFirestore rt tw) updatedUser

/-- The merge `new UserModel({ ...existingUser, ...updateData })` of
`PUT /admin/users/:userId`. -/
def adminMerge (existingUser : UserModel) (updateData : Obj) (tc tu : Int) : UserModel :=
  UserModel.constructor (updateData ++ existingUser.toObj) tc tu

/-- The handler of `PUT /admin/users/:userId`, up to the call of `update`. -/
def adminUpdateRoute (rt : Runtime) (stored : Option Doc) (updateData : Obj)
    (tc tu tc2 tu2 tw : Int) : Response :=
  match stored with
  | none => .notFound
  | some userDoc =>
    match (do
      let existingUser ← UserModel.fromFirestore userDoc tc tu
      let updatedUser := adminMerge existingUser updateData tc2 tu2
      let validationErrors ← updatedUser.validate rt
      pure (updatedUser, validationErrors)) with
    | .error e => .failed e
    | .ok (updatedUser, []) => .updated (updatedUser.toFirestore rt tw) updatedUser
    | .ok (_, e :: es) => .invalid (e :: es)

/-! ## The rules of `validate`, in the words of the specification -/

/-- A field that is missing (`undefined` or `null`) or holds a string. -/
def JSVal.absentOrString : JSVal → Bool
  | .undefined => true
  | .null => true
  | .str _ => true
  | _ => false

/-- A field is present and, after trimming, at least `k` characters long. -/
def presentWithLength (v : JSVal) (k : Nat) : Bool :=
  match v with
  | .str s => decide (k ≤ utf16Length (jsTrim s.data))
  | _ => false

/-- A field is present and matches the e-mail pattern. -/
def presentValidEmail (v : JSVal) : Bool :=
  match v with
  | .str s => emailRegexTest s
  | _ => false

/-- A field holds one of the strings of `allowed`. -/
def oneOf (v : JSVal) (allowed : List String) : Bool :=
  match v with
  | .str s => decide (s ∈ allowed)
  | _ => false

/-- The messages of the failing rules, in the order name, e-mail, phone, role, plan,
status: what the specification requires `validate` to return. -/
def expectedMessages (r : UserModel) : List String :=
  (if presentWithLength r.userName 2 then []
    else ["User name must be at least 2 characters long"]) ++
  (if presentValidEmail r.userEmail then [] else ["Valid email is required"]) ++
  (if presentWithLength r.userPhone 10 then [] else ["Valid phone number is required"]) ++
  (if oneOf r.role ["user", "admin", "expert"] then [] else ["Invalid role specified"]) ++
  (if oneOf r.plan ["basic", "Pro"] then [] else ["Invalid plan specified"]) ++
  (if oneOf r.status ["verified", "unverified", "suspended"] then []
    else ["Invalid status specified"])

/-- The record built from `{userName: "Al", userEmail: "bad", userPhone: "123"}`. -/
def sampleInvalidUser : UserModel :=
  UserModel.constructor
    [("userName", .str "Al"), ("userEmail", .str "bad"), ("userPhone", .str "123")] 0 0

/-! ## Calendar arithmetic, in the words of the specification -/

/-- The calendar date (year, month counted from 0, day of the month) one month after a
date: the same day of the month in the following month, which is January of the next
year after December. -/
def oneMonthLater (c : Int × Int × Int) : Int × Int × Int :=
  if c.2.1 = 11 then (c.1 + 1, 0, c.2.2) else (c.1, c.2.1 + 1, c.2.2)

/-- The calendar date one year after a date: the same month and day of the month in the
next year. -/
def oneYearLater (c : Int × Int × Int) : Int × Int × Int :=
  (c.1 + 1, c.2.1, c.2.2)

/-- The time value `u` is the time value `t` moved by `shift` in the local calendar:
`u` is the UTC value of a local time whose calendar date is the shifted date of `t`
and whose time of day is that of `t`.  There is no such `u` when the shifted date does
not exist (the 31st of a month of 30 days, the 29th of February of a common year). -/
def shiftedInCalendar (rt : Runtime) (shift : Int × Int × Int → Int × Int × Int)
    (t u : Int) : Prop :=
  ∃ l, civilOfDay (dayOf l) = shift (civilOfDay (dayOf (rt.toLocal t))) ∧
    timeWithinDay l = timeWithinDay (rt.toLocal t) ∧ rt.ofLocal l = u

/-- A record with an active subscription that ends on 2030-01-01 (a time later than the
readings used with it). -/
def sampleActiveUser : UserModel :=
  UserModel.constructor
    [("subscriptionStatus", .str "active"),
     ("subscriptionEndDate", .str "2030-01-01T00:00:00.000Z"),
     ("autoRenewal", .bool true)] 0 0

/-! ## The data model, in the words of the specification -/

/-- The names of the fields of a user record. -/
def fieldNames : List String :=
  ["userName", "userId", "userImage", "userEmail", "userPhone", "userAddress", "gender",
   "dob", "plan", "status", "otp", "fcmToken", "role", "isOnline", "lastActive", "about",
   "credits", "lastCreditReset", "selectedPaymentMethods", "paymentHistory",
   "notification", "bookmarks", "myPlants", "diagnosisHistory", "postArticle",
   "subscriptionStatus", "subscriptionStartDate", "subscriptionEndDate",
   "subscriptionType", "autoRenewal", "createdAt", "updatedAt"]

/-- The seven engagement collections. -/
def engagementCollections : List String :=
  ["selectedPaymentMethods", "paymentHistory", "notification", "bookmarks", "myPlants",
   "diagnosisHistory", "postArticle"]

/-- The documented default of a field: `status` is `'unverified'`, `credits` is `0`,
`autoRenewal` is `false`, `role` is `'user'`, `plan` is `'basic'`, `subscriptionStatus`
is `'inactive'`, `isOnline` is `'false'`, `about` is `''`, each engagement collection is
the empty sequence, `createdAt` and `updatedAt` are the current time (`tc` and `tu`,
the readings of the clock), and every other field is `null`. -/
def documentedDefault (tc tu : Int) (field : String) : JSVal :=
  if field = "status" then .str "unverified"
  else if field = "credits" then .num 0
  else if field = "autoRenewal" then .bool false
  else if field = "role" then .str "user"
  else if field = "plan" then .str "basic"
  else if field = "subscriptionStatus" then .str "inactive"
  else if field = "isOnline" then .str "false"
  else if field = "about" then .str ""
  else if field ∈ engagementCollections then .arr []
  else if field = "createdAt" then .str (isoString tc)
  else if field = "updatedAt" then .str (isoString tu)
  else .null

/-! ## Storage forms -/

/-- The three date fields that `toFirestore` and `fromFirestore` convert. -/
def dateFields : List String :=
  ["lastCreditReset", "subscriptionStartDate", "subscriptionEndDate"]

/-- The value `toFirestore` stores for a date field holding `v`: the `Date` built from
`v` when `v` is a non-empty string, and `v` itself otherwise. -/
def storedDate (rt : Runtime) (v : JSVal) : JSVal :=
  if v.truthy && v.isString then .date (newDate rt v) else v

/-- The record built from `{lastCreditReset: {toDate: 1}}`: its `lastCreditReset` is an
object with a `toDate` entry that is not a function. -/
def sampleToDateUser : UserModel :=
  UserModel.constructor [("lastCreditReset", .obj [("toDate", .num 1)])] 0 0

/-- The value `toFirestore` stores under a field that holds `v`: the stamp `now` under
`updatedAt`, the `storedDate` of `v` under a date field, and `v` under any other. -/
def storedField (rt : Runtime) (now : Int) (field : String) (v : JSVal) : JSVal :=
  if field = "updatedAt" then .str (isoString now)
  else if field ∈ dateFields then storedDate rt v
  else v

/-- A stored user document without a `role` field. -/
def sampleRolelessDoc : Doc :=
  { id := .str "u1"
    data := [("userName", .str "Al"), ("userEmail", .str "al@example.com")] }

/-- A stored user document of an ordinary user. -/
def sampleUserDoc : Doc :=
  { id := .str "u1"
    data := [("userName", .str "Al"), ("userEmail", .str "al@example.com"),
      ("role", .str "user")] }

/-- A stored user document with an active subscription until 2030-01-01, last updated
on 2024-01-01. -/
def sampleActiveDoc : Doc :=
  { id := .str "u1"
    data := [("userName", .str "Al"), ("subscriptionStatus", .str "active"),
      ("subscriptionEndDate", .timestamp 1893456000000),
      ("updatedAt", .str "2024-01-01T00:00:00.000Z")] }

/-- A record marked active whose `subscriptionEndDate` is the number 8640000000000001,
one millisecond beyond the last time value. -/
def sampleBeyondRangeUser : UserModel :=
  UserModel.constructor
    [("subscriptionStatus", .str "active"),
     ("subscriptionEndDate", .num 8640000000000001)] 0 0

/-! ## The shape `local@domain.tld`, in the words of the specification -/

/-- The part of a string before its first `@` (the whole string if it has none). -/
def localPart (cs : List Char) : List Char :=
  cs.takeWhile fun c => c != '@'

/-- The part of a string after its first `@` (empty if it has none). -/
def domainPart (cs : List Char) : List Char :=
  (cs.dropWhile fun c => c != '@').drop 1

/-- The characters of a string that are neither its first nor its last. -/
def interior (cs : List Char) : List Char :=
  (cs.drop 1).dropLast

/-- A non-empty run of characters that are neither white space nor `@`. -/
def goodRun (cs : List Char) : Prop :=
  cs ≠ [] ∧ ∀ c ∈ cs, isJSWhitespace c = false ∧ c ≠ '@'

/-! # Theorems -/

open UserModel

/-! ## Validation -/

theorem eqStr_eq_oneOf3 (v : JSVal) (a b c : String) :
    (v.eqStr a || v.eqStr b || v.eqStr c) = oneOf v [a, b, c] := by
  cases v <;> simp [JSVal.eqStr, oneOf, Bool.or_assoc]
  rfl

theorem eqStr_eq_oneOf2 (v : JSVal) (a b : String) :
    (v.eqStr a || v.eqStr b) = oneOf v [a, b] := by
  cases v <;> simp [JSVal.eqStr, oneOf]
  rfl

theorem tooShort_of_absentOrString (v : JSVal) (k : Nat) (hk : 0 < k)
    (h : v.absentOrString = true) :
    tooShort v k = .ok (!presentWithLength v k) := by
  cases v <;> simp_all [JSVal.absentOrString, tooShort, JSVal.truthy, presentWithLength,
    trimLength, Except.map]
  rename_i s
  split
  · subst s
    simp [jsTrim, utf16Length]
    omega
  · by_cases h : k ≤ utf16Length (jsTrim s.data)
    · simp [h]
    · simp [h]
      omega

theorem emailFails_of_absentOrString (rt : Runtime) (v : JSVal)
    (h : v.absentOrString = true) :
    (!v.truthy || !isValidEmail rt v) = !presentValidEmail v := by
  cases v <;> simp_all [JSVal.absentOrString, JSVal.truthy, presentValidEmail, isValidEmail,
    JSVal.toStr]
  rintro rfl
  decide

theorem validate_eq_expectedMessages (rt : Runtime) (r : UserModel)
    (hn : r.userName.absentOrString = true) (he : r.userEmail.absentOrString = true)
    (hp : r.userPhone.absentOrString = true) :
    r.validate rt = .ok (expectedMessages r) := by
  have h2 : 0 < 2 := by decide
  have h10 : 0 < 10 := by decide
  unfold validate expectedMessages
  rw [tooShort_of_absentOrString r.userName 2 h2 hn,
    tooShort_of_absentOrString r.userPhone 10 h10 hp, emailFails_of_absentOrString rt _ he,
    eqStr_eq_oneOf3 r.role, eqStr_eq_oneOf2 r.plan, eqStr_eq_oneOf3 r.status]
  simp only [bind, Except.bind, pure, Except.pure, pushIf]
  cases presentWithLength r.userName 2 <;> cases presentValidEmail r.userEmail <;>
  cases presentWithLength r.userPhone 10 <;> cases oneOf r.role ["user", "admin", "expert"] <;>
  cases oneOf r.plan ["basic", "Pro"] <;>
  cases oneOf r.status ["verified", "unverified", "suspended"] <;> rfl

theorem expectedMessages_eq_nil (r : UserModel) :
    expectedMessages r = [] ↔
      (presentWithLength r.userName 2 = true ∧ presentValidEmail r.userEmail = true ∧
        presentWithLength r.userPhone 10 = true ∧
        oneOf r.role ["user", "admin", "expert"] = true ∧
        oneOf r.plan ["basic", "Pro"] = true ∧
        oneOf r.status ["verified", "unverified", "suspended"] = true) := by
  unfold expectedMessages
  cases presentWithLength r.userName 2 <;> cases presentValidEmail r.userEmail <;>
  cases presentWithLength r.userPhone 10 <;> cases oneOf r.role ["user", "admin", "expert"] <;>
  cases oneOf r.plan ["basic", "Pro"] <;>
  cases oneOf r.status ["verified", "unverified", "suspended"] <;> simp

/-- C1: on a record whose `userName`, `userEmail` and `userPhone` are missing or strings,
`validate` returns exactly the messages of the failing rules, in the order name, e-mail,
phone, role, plan, status, every rule being checked (no short-circuit); the result is
empty if and only if all six rules hold. -/
theorem validate_reports_failing_rules (rt : Runtime) (r : UserModel)
    (hn : r.userName.absentOrString = true) (he : r.userEmail.absentOrString = true)
    (hp : r.userPhone.absentOrString = true) :
    r.validate rt = .ok
      ((if presentWithLength r.userName 2 then []
          else ["User name must be at least 2 characters long"]) ++
        (if presentValidEmail r.userEmail then [] else ["Valid email is required"]) ++
        (if presentWithLength r.userPhone 10 then []
          else ["Valid phone number is required"]) ++
        (if oneOf r.role ["user", "admin", "expert"] then []
          else ["Invalid role specified"]) ++
        (if oneOf r.plan ["basic", "Pro"] then [] else ["Invalid plan specified"]) ++
        (if oneOf r.status ["verified", "unverified", "suspended"] then []
          else ["Invalid status specified"])) ∧
    (r.validate rt = .ok [] ↔
      (presentWithLength r.userName 2 = true ∧ presentValidEmail r.userEmail = true ∧
        presentWithLength r.userPhone 10 = true ∧
        oneOf r.role ["user", "admin", "expert"] = true ∧
        oneOf r.plan ["basic", "Pro"] = true ∧
        oneOf r.status ["verified", "unverified", "suspended"] = true)) := by
  have h := validate_eq_expectedMessages rt r hn he hp
  refine ⟨h, ?_⟩
  rw [h, ← expectedMessages_eq_nil]
  constructor
  · intro e
    injection e
  · intro e
    rw [e]

/-- Witness of C1: the record built from `{userName: "Al", userEmail: "bad",
userPhone: "123"}` yields exactly the e-mail and the phone message. -/
theorem validate_reports_failing_rules_witness :
    sampleInvalidUser.userName.absentOrString = true ∧
    sampleInvalidUser.userEmail.absentOrString = true ∧
    sampleInvalidUser.userPhone.absentOrString = true ∧
    sampleInvalidUser.validate isoRuntime =
      .ok ["Valid email is required", "Valid phone number is required"] :=
  ⟨rfl, rfl, rfl, (validate_reports_failing_rules isoRuntime sampleInvalidUser rfl rfl rfl).1⟩

/-! ## Subscription transitions -/

/-! ### The calendar -/

theorem yoe_bounds (doe : Int) (h0 : 0 ≤ doe) (h1 : doe ≤ 146096) :
    0 ≤ (doe - doe / 1460 + doe / 36524 - doe / 146096) / 365 ∧
    (doe - doe / 1460 + doe / 36524 - doe / 146096) / 365 ≤ 399 := by
  omega

theorem doy_bounds (doe yoe : Int) (h0 : 0 ≤ doe) (h1 : doe ≤ 146096)
    (hy : yoe = (doe - doe / 1460 + doe / 36524 - doe / 146096) / 365) :
    0 ≤ doe - (365 * yoe + yoe / 4 - yoe / 100) ∧
    doe - (365 * yoe + yoe / 4 - yoe / 100) ≤ 366 := by
  have hb := yoe_bounds doe h0 h1
  rw [← hy] at hb
  have hd : doe / 36524 = 0 ∨ doe / 36524 = 1 ∨ doe / 36524 = 2 ∨ doe / 36524 = 3 ∨
      doe / 36524 = 4 := by omega
  have hg : yoe / 100 = 0 ∨ yoe / 100 = 1 ∨ yoe / 100 = 2 ∨ yoe / 100 = 3 := by omega
  rcases hd with hd | hd | hd | hd | hd <;> rcases hg with hg | hg | hg | hg <;> omega

theorem makeDay_civilOfDay (z : Int) :
    makeDay (civilOfDay z).1 (civilOfDay z).2.1 (civilOfDay z).2.2 = z := by
  unfold civilOfDay makeDay
  simp only [Int.fdiv_eq_ediv _ (by decide : (0:Int) ≤ 146097),
    Int.fdiv_eq_ediv _ (by decide : (0:Int) ≤ 1460),
    Int.fdiv_eq_ediv _ (by decide : (0:Int) ≤ 36524),
    Int.fdiv_eq_ediv _ (by decide : (0:Int) ≤ 146096),
    Int.fdiv_eq_ediv _ (by decide : (0:Int) ≤ 365),
    Int.fdiv_eq_ediv _ (by decide : (0:Int) ≤ 4),
    Int.fdiv_eq_ediv _ (by decide : (0:Int) ≤ 100),
    Int.fdiv_eq_ediv _ (by decide : (0:Int) ≤ 153),
    Int.fdiv_eq_ediv _ (by decide : (0:Int) ≤ 5),
    Int.fdiv_eq_ediv _ (by decide : (0:Int) ≤ 12),
    Int.fdiv_eq_ediv _ (by decide : (0:Int) ≤ 400),
    Int.fmod_eq_emod _ (by decide : (0:Int) ≤ 12)]
  generalize hera : (z + 719468) / 146097 = era
  generalize hdoe : z + 719468 - era * 146097 = doe
  have h0 : 0 ≤ doe := by omega
  have h1 : doe ≤ 146096 := by omega
  generalize hyoe : (doe - doe / 1460 + doe / 36524 - doe / 146096) / 365 = yoe
  have hb := yoe_bounds doe h0 h1
  rw [hyoe] at hb
  have hd := doy_bounds doe yoe h0 h1 hyoe.symm
  clear hyoe hera
  generalize hdoy : doe - (365 * yoe + yoe / 4 - yoe / 100) = doy at hd ⊢
  have hmp : 0 ≤ (5 * doy + 2) / 153 ∧ (5 * doy + 2) / 153 ≤ 11 := by omega
  generalize (5 * doy + 2) / 153 = mp at hmp ⊢
  have hy400 : (yoe + era * 400) / 400 = era := by omega
  by_cases h10 : mp < 10
  · have hm2 : ¬ (mp + 3 ≤ 2) := by omega
    have e1 : (mp + 3 - 1) / 12 = 0 := by omega
    have e2 : (mp + 3 - 1) % 12 = mp + 2 := by omega
    have e3 : ¬ (mp + 2 ≤ 1) := by omega
    have e5 : yoe + era * 400 - era * 400 = yoe := by omega
    have e6 : mp + 2 - 2 = mp := by omega
    simp only [h10, hm2, if_true, if_false, e1, e2, e3, add_zero, hy400, e5, e6]
    omega
  · have hm2 : mp - 9 ≤ 2 := by omega
    have e1 : (mp - 9 - 1) / 12 = 0 := by omega
    have e2 : (mp - 9 - 1) % 12 = mp - 10 := by omega
    have e3 : mp - 10 ≤ 1 := by omega
    have e4 : (yoe + era * 400 + 1 - 1) / 400 = era := by omega
    have e5 : yoe + era * 400 + 1 - 1 - era * 400 = yoe := by omega
    have e6 : mp - 10 + 10 = mp := by omega
    simp only [h10, hm2, if_true, if_false, e1, e2, e3, add_zero, e4, e5, e6]
    omega

theorem makeDay_of_civilOfDay (z y m d : Int) (h : civilOfDay z = (y, m, d)) :
    makeDay y m d = z := by
  have := makeDay_civilOfDay z
  rw [h] at this
  exact this

theorem makeDay_twelve (y d : Int) : makeDay y 12 d = makeDay (y + 1) 0 d := by
  unfold makeDay
  have h1 : Int.fdiv 12 12 = 1 := by decide
  have h2 : Int.fmod 12 12 = 0 := by decide
  have h3 : Int.fdiv 0 12 = 0 := by decide
  have h4 : Int.fmod 0 12 = 0 := by decide
  simp only [h1, h2, h3, h4, add_zero]

theorem makeDate_dayOf (l : Int) : makeDate (dayOf l) (timeWithinDay l) = l := by
  unfold makeDate dayOf timeWithinDay msPerDay
  rw [Int.fdiv_eq_ediv _ (by decide), Int.fmod_eq_emod _ (by decide)]
  omega

theorem setMonth_next (rt : Runtime) (t u : Int)
    (h : shiftedInCalendar rt oneMonthLater t u) :
    setMonth rt (some t) ((getMonth rt (some t)).map fun m => m + 1) = timeClip u := by
  obtain ⟨l, hc, ht, hu⟩ := h
  simp only [setMonth, getMonth, Option.map_some']
  congr 1
  rw [← hu]
  congr 1
  rw [← ht]
  conv_rhs => rw [← makeDate_dayOf l]
  congr 1
  generalize hcv : civilOfDay (dayOf (rt.toLocal t)) = c at hc
  obtain ⟨y, m, d⟩ := c
  unfold oneMonthLater at hc
  by_cases hm : m = 11
  · subst hm
    simp only [if_true] at hc
    show makeDay y (11 + 1) d = dayOf l
    rw [show (11 : Int) + 1 = 12 from rfl, makeDay_twelve]
    exact makeDay_of_civilOfDay _ _ _ _ hc
  · simp only [hm, if_false] at hc
    exact makeDay_of_civilOfDay _ _ _ _ hc

theorem setFullYear_next (rt : Runtime) (t u : Int)
    (h : shiftedInCalendar rt oneYearLater t u) :
    setFullYear rt (some t) ((getFullYear rt (some t)).map fun y => y + 1) = timeClip u := by
  obtain ⟨l, hc, ht, hu⟩ := h
  simp only [setFullYear, getFullYear, Option.map_some']
  congr 1
  rw [← hu]
  congr 1
  rw [← ht]
  conv_rhs => rw [← makeDate_dayOf l]
  congr 1
  exact makeDay_of_civilOfDay _ _ _ _ hc

/-! ### Activation -/

theorem eqStr_eq_true (v : JSVal) (s : String) : v.eqStr s = true ↔ v = .str s := by
  cases v <;> simp [JSVal.eqStr]

theorem timeClip_of_inRange (u : Int) (h1 : -8640000000000000 ≤ u)
    (h2 : u ≤ 8640000000000000) : timeClip u = some u := by
  simp [timeClip, h1, h2]

theorem activateSubscription_eq (rt : Runtime) (r : UserModel) (type duration : JSVal)
    (t1 t2 t3 : Int) :
    r.activateSubscription rt type duration t1 t2 t3 =
      match toISOString
        (if duration.eqStr "monthly" then
          setMonth rt (some t2) ((getMonth rt (some t2)).map fun m => m + 1)
        else if duration.eqStr "yearly" then
          setFullYear rt (some t2) ((getFullYear rt (some t2)).map fun y => y + 1)
        else some t2) with
      | .ok e => .ok
        { r with
          subscriptionStatus := .str "active"
          subscriptionType := type
          subscriptionStartDate := .str (isoString t1)
          subscriptionEndDate := .str e
          updatedAt := .str (isoString t3) }
      | .error err => .error err := by
  unfold activateSubscription
  simp only [bind, Except.bind, pure, Except.pure]
  split <;> simp_all

/-- C2, as the code has it, for the three successive readings `t1`, `t2`, `t3` of the
clock: `activateSubscription(type, duration)` returns normally unless the end date it
computes is beyond the range of time values; it leaves `subscriptionStatus = 'active'`,
`subscriptionType = type` (whatever value `type` is) and `subscriptionStartDate = t1`;
for the duration `'monthly'` (`'yearly'`) the end date is the time `u` one calendar
month (year) after `t2`, whenever such a time exists and is a valid time value; for any
other duration the end date is `t2` itself, which is the start date when the clock did
not advance between the two readings. -/
theorem activateSubscription_effect (rt : Runtime) (r : UserModel) (type duration : JSVal)
    (t1 t2 t3 : Int) :
    ((∃ r', r.activateSubscription rt type duration t1 t2 t3 = .ok r') ∨
      r.activateSubscription rt type duration t1 t2 t3 = .error .rangeError) ∧
    (∀ r', r.activateSubscription rt type duration t1 t2 t3 = .ok r' →
      r'.subscriptionStatus = .str "active" ∧ r'.subscriptionType = type ∧
        r'.subscriptionStartDate = .str (isoString t1)) ∧
    (∀ u, duration = .str "monthly" → shiftedInCalendar rt oneMonthLater t2 u →
      -8640000000000000 ≤ u → u ≤ 8640000000000000 →
      ∃ r', r.activateSubscription rt type duration t1 t2 t3 = .ok r' ∧
        r'.subscriptionEndDate = .str (isoString u)) ∧
    (∀ u, duration = .str "yearly" → shiftedInCalendar rt oneYearLater t2 u →
      -8640000000000000 ≤ u → u ≤ 8640000000000000 →
      ∃ r', r.activateSubscription rt type duration t1 t2 t3 = .ok r' ∧
        r'.subscriptionEndDate = .str (isoString u)) ∧
    (duration ≠ .str "monthly" → duration ≠ .str "yearly" →
      ∃ r', r.activateSubscription rt type duration t1 t2 t3 = .ok r' ∧
        r'.subscriptionEndDate = .str (isoString t2) ∧
        (t1 = t2 → r'.subscriptionEndDate = r'.subscriptionStartDate)) := by
  rw [activateSubscription_eq]
  refine ⟨?_, ?_, ?_, ?_, ?_⟩
  · generalize (if duration.eqStr "monthly" = true then _ else _ : Option Int) = e
    cases e with
    | none => exact Or.inr rfl
    | some e => exact Or.inl ⟨_, rfl⟩
  · intro r' h
    generalize (if duration.eqStr "monthly" = true then _ else _ : Option Int) = e at h
    cases e with
    | none => cases h
    | some e =>
      simp only [toISOString] at h
      injection h with h
      subst h
      exact ⟨rfl, rfl, rfl⟩
  · intro u hd hs h1 h2
    subst hd
    have hm : (JSVal.str "monthly").eqStr "monthly" = true := by decide
    rw [if_pos hm, setMonth_next rt t2 u hs, timeClip_of_inRange u h1 h2]
    exact ⟨_, rfl, rfl⟩
  · intro u hd hs h1 h2
    subst hd
    have hm : ¬ (JSVal.str "yearly").eqStr "monthly" = true := by decide
    have hy : (JSVal.str "yearly").eqStr "yearly" = true := by decide
    rw [if_neg hm, if_pos hy, setFullYear_next rt t2 u hs, timeClip_of_inRange u h1 h2]
    exact ⟨_, rfl, rfl⟩
  · intro hm hy
    have hm' : ¬ duration.eqStr "monthly" = true := fun h => hm ((eqStr_eq_true _ _).1 h)
    have hy' : ¬ duration.eqStr "yearly" = true := fun h => hy ((eqStr_eq_true _ _).1 h)
    rw [if_neg hm', if_neg hy']
    refine ⟨_, rfl, rfl, ?_⟩
    intro h
    rw [h]

/-- Witness of the amended C2: `activateSubscription("monthly", "monthly")` on a freshly
constructed record at 2024-01-15T00:00:00Z (UTC host) ends on 2024-02-15, the time one
calendar month later. -/
theorem activateSubscription_effect_witness :
    civilOfDay (dayOf 1705276800000) = (2024, 0, 15) ∧
    civilOfDay (dayOf 1707955200000) = (2024, 1, 15) ∧
    shiftedInCalendar isoRuntime oneMonthLater 1705276800000 1707955200000 ∧
    ∃ r', (constructDefault 0 0).activateSubscription isoRuntime
        (.str "monthly") (.str "monthly") 1705276800000 1705276800000 1705276800000 = .ok r' ∧
      r'.subscriptionEndDate = .str "2024-02-15T00:00:00.000Z" :=
  ⟨by decide, by decide, ⟨1707955200000, by decide, by decide, rfl⟩,
    (activateSubscription_effect isoRuntime (constructDefault 0 0) (.str "monthly")
      (.str "monthly") 1705276800000 1705276800000 1705276800000).2.2.1 1707955200000 rfl
      ⟨1707955200000, by decide, by decide, rfl⟩ (by decide) (by decide)⟩

/-- Counterexample to C2 as stated.  With the clock read at `0` and then at `1`, an
activation with the duration `"weekly"` has the start date 1970-01-01T00:00:00.000Z and
the end date 1970-01-01T00:00:00.001Z, which is not the start date.  And the monthly
activation at 2024-01-31T00:00:00Z ends on 2024-03-02, a date in March, while the date
one calendar month after January 31 would be February 31. -/
theorem activateSubscription_counterexample :
    (∃ r', (constructDefault 0 0).activateSubscription isoRuntime
        (.str "weekly") (.str "weekly") 0 1 2 = .ok r' ∧
      r'.subscriptionStartDate = .str "1970-01-01T00:00:00.000Z" ∧
      r'.subscriptionEndDate = .str "1970-01-01T00:00:00.001Z" ∧
      r'.subscriptionEndDate ≠ r'.subscriptionStartDate) ∧
    (∃ r', (constructDefault 0 0).activateSubscription isoRuntime
        (.str "monthly") (.str "monthly") 1706659200000 1706659200000 1706659200000 = .ok r' ∧
      r'.subscriptionEndDate = .str "2024-03-02T00:00:00.000Z") ∧
    civilOfDay (dayOf 1706659200000) = (2024, 0, 31) ∧
    oneMonthLater (2024, 0, 31) = (2024, 1, 31) ∧
    civilOfDay (dayOf 1709337600000) = (2024, 2, 2) ∧
    isoString 1709337600000 = "2024-03-02T00:00:00.000Z" :=
  ⟨⟨_, rfl, rfl, rfl, fun h => absurd (JSVal.str.inj h) (by decide)⟩, ⟨_, rfl, rfl⟩,
    by decide, by decide, by decide, by decide⟩

/-- C3: `isSubscriptionActive()` returns `true` if and only if `subscriptionStatus` is
`'active'`, `subscriptionEndDate` is set (truthy) and the date it denotes is strictly
later than the current time `now` (a value that denotes no valid date is later than no
time); the call leaves the record as it was. -/
theorem isSubscriptionActive_iff (rt : Runtime) (r : UserModel) (now : Int) :
    ((r.isSubscriptionActive rt now).1 = true ↔
      r.subscriptionStatus = .str "active" ∧ r.subscriptionEndDate.truthy = true ∧
        ∃ e, newDate rt r.subscriptionEndDate = some e ∧ now < e) ∧
    (r.isSubscriptionActive rt now).2 = r := by
  unfold isSubscriptionActive
  by_cases hs : r.subscriptionStatus.eqStr "active" = true
  · have hs' := (eqStr_eq_true _ _).1 hs
    by_cases he : r.subscriptionEndDate.truthy = true
    · cases hd : newDate rt r.subscriptionEndDate with
      | none => simp [he, hs', JSVal.eqStr]
      | some e => simp [he, hs', JSVal.eqStr]
    · simp [hs, he]
  · have hs' : ¬ r.subscriptionStatus = .str "active" := fun h => hs ((eqStr_eq_true _ _).2 h)
    simp [hs, hs']

/-- Evaluation of C3 on a host in UTC: a subscription that is active until 2030-01-01 is
reported active on 2024-01-31 and inactive at the end date itself; an end date beyond
the range of time values is an Invalid Date, later than no time; the record is left as
it was. -/
theorem isSubscriptionActive_iff_witness :
    (sampleActiveUser.isSubscriptionActive isoRuntime 1706659200000).1 = true ∧
    (sampleActiveUser.isSubscriptionActive isoRuntime 1893456000000).1 = false ∧
    (sampleBeyondRangeUser.isSubscriptionActive isoRuntime 1706659200000).1 = false ∧
    (sampleActiveUser.isSubscriptionActive isoRuntime 1706659200000).2 = sampleActiveUser :=
  ⟨by decide, by decide, by decide,
    (isSubscriptionActive_iff isoRuntime sampleActiveUser 1706659200000).2⟩

/-- C4: after `cancelSubscription()` the record has `subscriptionStatus = 'cancelled'` and
`autoRenewal = false`, and `isSubscriptionActive()` returns `false` at every time,
whatever the earlier status and whatever the end date. -/
theorem cancelSubscription_inactive (rt : Runtime) (r : UserModel) (now later : Int) :
    (r.cancelSubscription now).subscriptionStatus = .str "cancelled" ∧
    (r.cancelSubscription now).autoRenewal = .bool false ∧
    ((r.cancelSubscription now).isSubscriptionActive rt later).1 = false := by
  refine ⟨rfl, rfl, ?_⟩
  simp [cancelSubscription, isSubscriptionActive, JSVal.eqStr]

/-- C5: on a record whose `subscriptionEndDate` is unset (falsy), the `'extend'` action
returns normally and changes nothing, for every duration: the subscription fields, as
the whole record, are the ones it started from. -/
theorem extendAction_unset_noop (rt : Runtime) (user : UserModel) (duration : JSVal)
    (h : user.subscriptionEndDate.truthy = false) :
    ∃ user', extendAction rt user duration = .ok user' ∧
      user'.subscriptionStatus = user.subscriptionStatus ∧
      user'.subscriptionType = user.subscriptionType ∧
      user'.subscriptionStartDate = user.subscriptionStartDate ∧
      user'.subscriptionEndDate = user.subscriptionEndDate ∧
      user'.autoRenewal = user.autoRenewal ∧
      user' = user := by
  refine ⟨user, ?_, rfl, rfl, rfl, rfl, rfl, rfl⟩
  simp [extendAction, h, pure, Except.pure]

/-- Witness of C5: `extend` with the duration `'yearly'` on a freshly constructed record,
whose `subscriptionEndDate` is `null`. -/
theorem extendAction_unset_noop_witness :
    (constructDefault 0 0).subscriptionEndDate.truthy = false ∧
    extendAction isoRuntime (constructDefault 0 0) (.str "yearly") =
      .ok (constructDefault 0 0) := by
  obtain ⟨u, hu, _, _, _, _, _, he⟩ :=
    extendAction_unset_noop isoRuntime (constructDefault 0 0) (.str "yearly") rfl
  exact ⟨rfl, he ▸ hu⟩

/-! ## Construction and defaults -/

theorem or_undefined (d : JSVal) : JSVal.undefined.or d = d := rfl

theorem or_of_truthy (a d : JSVal) (h : a.truthy = true) : a.or d = a := by
  simp [JSVal.or, h]

theorem or_of_falsy (a d : JSVal) (h : a.truthy = false) : a.or d = d := by
  simp [JSVal.or, h]

theorem constructor_get (data : Obj) (tc tu : Int) (f : String) (hf : f ∈ fieldNames) :
    (UserModel.constructor data tc tu).toObj.get f =
      (data.get f).or (documentedDefault tc tu f) := by
  simp only [fieldNames, List.mem_cons, List.mem_singleton, List.not_mem_nil, or_false] at hf
  rcases hf with
    rfl | rfl | rfl | rfl | rfl | rfl | rfl | rfl |
    rfl | rfl | rfl | rfl | rfl | rfl | rfl | rfl |
    rfl | rfl | rfl | rfl | rfl | rfl | rfl | rfl |
    rfl | rfl | rfl | rfl | rfl | rfl | rfl | rfl <;> rfl

theorem get_nil (f : String) : Obj.get [] f = .undefined := rfl

theorem get_append_of_isDefined (a b : Obj) (f : String)
    (h : (a.get f).isDefined = true) : Obj.get (a ++ b) f = a.get f := by
  induction a with
  | nil => simp [Obj.get, JSVal.isDefined] at h
  | cons kv a ih =>
    obtain ⟨k, v⟩ := kv
    by_cases hk : f = k
    · subst hk
      simp [Obj.get, List.lookup]
    · have hk' : (f == k) = false := by simpa using hk
      simp only [Obj.get, List.cons_append, List.lookup, hk'] at h ⊢
      exact ih h

theorem isDefined_of_truthy (v : JSVal) (h : v.truthy = true) : v.isDefined = true := by
  cases v <;> simp_all [JSVal.truthy, JSVal.isDefined]

/-- C8: the constructor is a total function of its input mapping (it cannot fail) and
runs no validation (it builds the record of the empty input, which `validate` rejects
with three messages); every field that is absent or `undefined` in the input takes its
documented default, and with the empty input, or no argument, every field does. -/
theorem constructor_defaults (rt : Runtime) (data : Obj) (tc tu : Int) :
    (∀ f, f ∈ fieldNames → data.get f = .undefined →
      (UserModel.constructor data tc tu).toObj.get f = documentedDefault tc tu f) ∧
    (UserModel.constructor data tc tu).toObj.map Prod.fst = fieldNames ∧
    (∀ f, f ∈ fieldNames →
      (UserModel.constructor [] tc tu).toObj.get f = documentedDefault tc tu f) ∧
    (∀ f, f ∈ fieldNames →
      (constructDefault tc tu).toObj.get f = documentedDefault tc tu f) ∧
    (constructDefault tc tu).validate rt =
      .ok ["User name must be at least 2 characters long", "Valid email is required",
        "Valid phone number is required"] := by
  have h0 : ∀ f, f ∈ fieldNames →
      (UserModel.constructor [] tc tu).toObj.get f = documentedDefault tc tu f := by
    intro f hf
    rw [constructor_get [] tc tu f hf, get_nil, or_undefined]
  refine ⟨?_, rfl, h0, h0, ?_⟩
  · intro f hf h
    rw [constructor_get data tc tu f hf, h, or_undefined]
  · exact (validate_eq_expectedMessages rt (constructDefault tc tu) rfl rfl rfl).trans rfl

/-- Witness of C8: the input `{userName: "Al"}` leaves `status`, `credits` and
`autoRenewal` absent, and they come out as `'unverified'`, `0` and `false`. -/
theorem constructor_defaults_witness :
    (UserModel.constructor [("userName", .str "Al")] 0 0).status = .str "unverified" ∧
    (UserModel.constructor [("userName", .str "Al")] 0 0).credits = .num 0 ∧
    (UserModel.constructor [("userName", .str "Al")] 0 0).autoRenewal = .bool false :=
  ⟨(constructor_defaults isoRuntime [("userName", .str "Al")] 0 0).1 "status"
      (by decide) rfl,
    (constructor_defaults isoRuntime [("userName", .str "Al")] 0 0).1 "credits"
      (by decide) rfl,
    (constructor_defaults isoRuntime [("userName", .str "Al")] 0 0).1 "autoRenewal"
      (by decide) rfl⟩

/-- C9, as the code has it: a field supplied with a truthy value is held by the
constructed record as supplied, while a field supplied with a falsy value (the empty
string, `0`, `false`, `null`) takes its default like an absent one; so the merge of the
admin update never replaces a truthy value supplied in `updateData` by a default. -/
theorem constructor_keeps_truthy (existingUser : UserModel) (data updateData : Obj)
    (tc tu : Int) :
    (∀ f, f ∈ fieldNames → (data.get f).truthy = true →
      (UserModel.constructor data tc tu).toObj.get f = data.get f) ∧
    (∀ f, f ∈ fieldNames → (data.get f).truthy = false →
      (UserModel.constructor data tc tu).toObj.get f = documentedDefault tc tu f) ∧
    (∀ f, f ∈ fieldNames → (updateData.get f).truthy = true →
      (adminMerge existingUser updateData tc tu).toObj.get f = updateData.get f) := by
  refine ⟨?_, ?_, ?_⟩
  · intro f hf h
    rw [constructor_get data tc tu f hf, or_of_truthy _ _ h]
  · intro f hf h
    rw [constructor_get data tc tu f hf, or_of_falsy _ _ h]
  · intro f hf h
    unfold adminMerge
    rw [constructor_get _ tc tu f hf,
      get_append_of_isDefined _ _ _ (isDefined_of_truthy _ h), or_of_truthy _ _ h]

/-- Witness of the amended C9: the supplied name `"Al"` is kept by the constructor, the
supplied `isOnline: false` is replaced by the default `'false'`, and the admin merge
keeps the supplied plan `"Pro"`. -/
theorem constructor_keeps_truthy_witness :
    (UserModel.constructor [("userName", .str "Al"), ("isOnline", .bool false)] 0 0).userName
      = .str "Al" ∧
    (UserModel.constructor [("userName", .str "Al"), ("isOnline", .bool false)] 0 0).isOnline
      = .str "false" ∧
    (adminMerge sampleInvalidUser [("plan", .str "Pro")] 0 0).plan = .str "Pro" :=
  ⟨(constructor_keeps_truthy sampleInvalidUser
      [("userName", .str "Al"), ("isOnline", .bool false)] [("plan", .str "Pro")] 0 0).1
      "userName" (by decide) rfl,
    (constructor_keeps_truthy sampleInvalidUser
      [("userName", .str "Al"), ("isOnline", .bool false)] [("plan", .str "Pro")] 0 0).2.1
      "isOnline" (by decide) rfl,
    (constructor_keeps_truthy sampleInvalidUser
      [("userName", .str "Al"), ("isOnline", .bool false)] [("plan", .str "Pro")] 0 0).2.2
      "plan" (by decide) rfl⟩

/-- Counterexample to C9 as stated: the inputs `{userName: ""}` and `{isOnline: false}`
hold these fields, yet the constructed record has `userName = null` and
`isOnline = 'false'` (the defaults) instead of the values supplied; and the admin merge
of the update `{userName: ""}` into a record named `"Al"` yields `userName = null`. -/
theorem constructor_keeps_supplied_counterexample :
    Obj.get [("userName", .str "")] "userName" = .str "" ∧
    (UserModel.constructor [("userName", .str "")] 0 0).userName = .null ∧
    (UserModel.constructor [("userName", .str "")] 0 0).userName ≠ .str "" ∧
    Obj.get [("isOnline", .bool false)] "isOnline" = .bool false ∧
    (UserModel.constructor [("isOnline", .bool false)] 0 0).isOnline = .str "false" ∧
    (UserModel.constructor [("isOnline", .bool false)] 0 0).isOnline ≠ .bool false ∧
    sampleInvalidUser.userName = .str "Al" ∧
    (adminMerge sampleInvalidUser [("userName", .str "")] 0 0).userName = .null ∧
    (adminMerge sampleInvalidUser [("userName", .str "")] 0 0).userName ≠ .str "" :=
  ⟨rfl, rfl, fun h => JSVal.noConfusion h, rfl, rfl, fun h => JSVal.noConfusion h, rfl, rfl,
    fun h => JSVal.noConfusion h⟩

/-! ## Storage round trip -/

theorem toFirestore_eq (rt : Runtime) (r : UserModel) (now : Int) :
    r.toFirestore rt now =
      ({ r with
          lastCreditReset := storedDate rt r.lastCreditReset
          subscriptionStartDate := storedDate rt r.subscriptionStartDate
          subscriptionEndDate := storedDate rt r.subscriptionEndDate
          updatedAt := .str (isoString now) } : UserModel).toObj := by
  unfold toFirestore storedDate
  split_ifs <;> rfl

theorem isoString_ne_empty (t : Int) : isoString t ≠ "" := by
  unfold isoString
  intro h
  have := congrArg String.length h
  simp [String.length] at this

theorem truthy_isoString (t : Int) : (JSVal.str (isoString t)).truthy = true := by
  simp [JSVal.truthy, isoString_ne_empty]

theorem or_or_self (x d : JSVal) : (x.or d).or d = x.or d := by
  unfold JSVal.or
  by_cases h : x.truthy = true
  · simp [h]
  · simp [h]

/-- C6: the round trip fails on the record the constructor builds from
`{lastCreditReset: {toDate: 1}}`.  The constructor keeps the object and `toFirestore`
stores it as it is, but `fromFirestore` on that document throws a `TypeError` (`toDate`
is not a function) instead of returning a record; an object without a `toDate` entry in
the same field is passed through unchanged. -/
theorem fromFirestore_toFirestore_typeError :
    sampleToDateUser.lastCreditReset = .obj [("toDate", .num 1)] ∧
    (sampleToDateUser.toFirestore isoRuntime 5).get "lastCreditReset" =
      .obj [("toDate", .num 1)] ∧
    fromFirestore ⟨sampleToDateUser.userId, sampleToDateUser.toFirestore isoRuntime 5⟩ 7 7 =
      .error .typeError ∧
    ∃ r', fromFirestore ⟨.str "u1", [("lastCreditReset", .obj [("seconds", .num 1)])]⟩ 7 7 =
        .ok r' ∧
      r'.lastCreditReset = .obj [("seconds", .num 1)] :=
  ⟨rfl, rfl, rfl, _, rfl, rfl⟩

/-! ## The self-service profile update -/

theorem get_append_of_lookup_none (a b : Obj) (f : String) (h : a.lookup f = none) :
    Obj.get (a ++ b) f = b.get f := by
  unfold Obj.get
  rw [List.lookup_append, h]
  rfl

theorem lookup_filteredUpdateData (updateData : Obj) (f : String) (hf : f ∉ allowedFields) :
    (filteredUpdateData updateData).lookup f = none := by
  unfold filteredUpdateData
  generalize allowedFields = fields at hf
  induction fields with
  | nil => rfl
  | cons x xs ih =>
    have hx : f ≠ x := fun h => hf (h ▸ List.mem_cons_self _ _)
    have hxs : f ∉ xs := fun h => hf (List.mem_cons_of_mem _ h)
    have hx' : (f == x) = false := by simpa using hx
    simp only [List.filterMap_cons]
    split
    · exact ih hxs
    · rename_i heq
      split at heq
      · cases heq
        simp only [List.lookup, hx']
        exact ih hxs
      · cases heq

theorem fromFirestore_ok (doc : Doc) (tc tu : Int) (existing : UserModel)
    (h : fromFirestore doc tc tu = .ok existing) :
    ∃ a b c, existing = UserModel.constructor
      ([("userId", doc.id),
        ("lastCreditReset", a),
        ("subscriptionStartDate", b),
        ("subscriptionEndDate", c)] ++ doc.data) tc tu := by
  unfold fromFirestore at h
  simp only [bind, Except.bind, pure, Except.pure] at h
  split at h
  · cases h
  · split at h
    · cases h
    · split at h
      · cases h
      · injection h with h
        exact ⟨_, _, _, h.symm⟩

theorem toFirestore_get (rt : Runtime) (r : UserModel) (now : Int) (f : String)
    (hf : f ∈ fieldNames) :
    (r.toFirestore rt now).get f = storedField rt now f (r.toObj.get f) := by
  rw [toFirestore_eq]
  simp only [fieldNames, List.mem_cons, List.mem_singleton, List.not_mem_nil, or_false] at hf
  rcases hf with
    rfl | rfl | rfl | rfl | rfl | rfl | rfl | rfl |
    rfl | rfl | rfl | rfl | rfl | rfl | rfl | rfl |
    rfl | rfl | rfl | rfl | rfl | rfl | rfl | rfl |
    rfl | rfl | rfl | rfl | rfl | rfl | rfl | rfl <;> rfl

theorem profileRoute_written_get (rt : Runtime) (userDoc : Doc) (updateData : Obj)
    (tc tu tc2 tu2 tw : Int) (existing : UserModel)
    (he : fromFirestore userDoc tc tu = .ok existing) :
    ∃ written user,
      profileRoute rt (some userDoc) updateData tc tu tc2 tu2 tw = .updated written user ∧
      ∀ f, f ∈ fieldNames → written.get f = storedField rt tw f
        (((filteredUpdateData updateData ++ existing.toObj).get f).or
          (documentedDefault tc2 tu2 f)) := by
  refine ⟨(UserModel.constructor (filteredUpdateData updateData ++ existing.toObj)
      tc2 tu2).toFirestore rt tw,
    UserModel.constructor (filteredUpdateData updateData ++ existing.toObj) tc2 tu2, ?_, ?_⟩
  · unfold profileRoute
    simp only [he]
  · intro f hf
    rw [toFirestore_get rt _ tw f hf, constructor_get _ tc2 tu2 f hf]

theorem get_filteredUpdateData (updateData : Obj) (f : String) (hf : f ∈ allowedFields)
    (hd : (updateData.get f).isDefined = true) :
    (filteredUpdateData updateData).get f = updateData.get f := by
  unfold filteredUpdateData
  generalize allowedFields = fields at hf
  induction fields with
  | nil => cases hf
  | cons x xs ih =>
    simp only [List.filterMap_cons]
    by_cases hx : f = x
    · subst hx
      simp only [hd, if_true]
      show Obj.get ((f, updateData.get f) :: _) f = updateData.get f
      simp [Obj.get, List.lookup]
    · have hxs : f ∈ xs := by
        rcases List.mem_cons.1 hf with h | h
        · exact absurd h hx
        · exact h
      have hx' : (f == x) = false := by simpa using hx
      split
      · exact ih hxs
      · rename_i heq
        split at heq
        · cases heq
          simp only [Obj.get, List.lookup, hx']
          exact ih hxs
        · cases heq

/-- C7, as the code has it: whenever `PUT /users/profile` writes a document, its role
does not depend on the payload: it is the stored role when that is truthy, and the
default `'user'` when the stored document has no role or a falsy one.  Any other payload
yields a written document with the same value in every field outside the allow-list,
and a truthy payload value of an allow-listed field is the value written. -/
theorem profileRoute_allow_list (rt : Runtime) (userDoc : Doc) (updateData other : Obj)
    (tc tu tc2 tu2 tw : Int) (written : Obj) (user : UserModel)
    (h : profileRoute rt (some userDoc) updateData tc tu tc2 tu2 tw = .updated written user) :
    written.get "role" = (userDoc.data.get "role").or (.str "user") ∧
    ((userDoc.data.get "role").truthy = true → written.get "role" = userDoc.data.get "role") ∧
    (∃ written2 user2,
      profileRoute rt (some userDoc) other tc tu tc2 tu2 tw = .updated written2 user2 ∧
      ∀ f, f ∈ fieldNames → f ∉ allowedFields → written2.get f = written.get f) ∧
    (∀ f, f ∈ allowedFields → (updateData.get f).truthy = true →
      written.get f = updateData.get f) := by
  cases he : fromFirestore userDoc tc tu with
  | error e =>
    unfold profileRoute at h
    simp [he] at h
  | ok existing =>
    obtain ⟨w, u, hw, hget⟩ :=
      profileRoute_written_get rt userDoc updateData tc tu tc2 tu2 tw existing he
    obtain ⟨w2, u2, hw2, hget2⟩ :=
      profileRoute_written_get rt userDoc other tc tu tc2 tu2 tw existing he
    rw [hw] at h
    injection h with h1 h2
    subst h1
    obtain ⟨a, b, c, hex⟩ := fromFirestore_ok userDoc tc tu existing he
    have hrole : w.get "role" = (userDoc.data.get "role").or (.str "user") := by
      rw [hget "role" (by decide),
        get_append_of_lookup_none _ _ _ (lookup_filteredUpdateData _ "role" (by decide)), hex]
      exact or_or_self _ _
    refine ⟨hrole, ?_, ⟨w2, u2, hw2, ?_⟩, ?_⟩
    · intro ht
      rw [hrole, or_of_truthy _ _ ht]
    · intro f hf hna
      have hl := lookup_filteredUpdateData updateData f hna
      have hl2 := lookup_filteredUpdateData other f hna
      rw [hget f hf, hget2 f hf, get_append_of_lookup_none _ _ _ hl,
        get_append_of_lookup_none _ _ _ hl2]
    · intro f hf ht
      have hd := isDefined_of_truthy _ ht
      have hfn : f ∈ fieldNames := by
        simp only [allowedFields, List.mem_cons, List.mem_singleton, List.not_mem_nil,
          or_false] at hf
        rcases hf with rfl | rfl | rfl | rfl | rfl | rfl | rfl <;> decide
      have hs : ∀ v, storedField rt tw f v = v := by
        simp only [allowedFields, List.mem_cons, List.mem_singleton, List.not_mem_nil,
          or_false] at hf
        rcases hf with rfl | rfl | rfl | rfl | rfl | rfl | rfl <;> intro v <;> rfl
      have hg := get_filteredUpdateData updateData f hf hd
      rw [hget f hfn, hs, get_append_of_isDefined _ _ _ (hg ▸ hd), hg, or_of_truthy _ _ ht]

/-- Witness of the amended C7: on a stored document with role `'user'`, the payload
`{role: "admin", about: "hi"}` leaves the written role `'user'` and sets `about`. -/
theorem profileRoute_allow_list_witness :
    ∃ written user,
      profileRoute isoRuntime (some sampleUserDoc)
        [("role", .str "admin"), ("about", .str "hi")] 0 0 0 0 5 = .updated written user ∧
      written.get "role" = .str "user" ∧
      written.get "role" = sampleUserDoc.data.get "role" ∧
      written.get "about" = .str "hi" := by
  refine ⟨_, _, rfl, ?_, ?_, ?_⟩
  · exact (profileRoute_allow_list isoRuntime sampleUserDoc
      [("role", .str "admin"), ("about", .str "hi")] [] 0 0 0 0 5 _ _ rfl).1
  · exact (profileRoute_allow_list isoRuntime sampleUserDoc
      [("role", .str "admin"), ("about", .str "hi")] [] 0 0 0 0 5 _ _ rfl).2.1 rfl
  · exact (profileRoute_allow_list isoRuntime sampleUserDoc
      [("role", .str "admin"), ("about", .str "hi")] [] 0 0 0 0 5 _ _ rfl).2.2.2 "about"
      (by decide) rfl

/-- Counterexample to C7 as stated: the stored document has no `role` field, and the
document written back by `PUT /users/profile` for the payload `{role: "admin"}` has the
role `'user'`, the constructor's default, which is not the role of the stored document
(`undefined`). -/
theorem profileRoute_role_counterexample :
    sampleRolelessDoc.data.get "role" = .undefined ∧
    ∃ written user,
      profileRoute isoRuntime (some sampleRolelessDoc) [("role", .str "admin")] 0 0 0 0 5 =
        .updated written user ∧
      written.get "role" = .str "user" ∧
      written.get "role" ≠ sampleRolelessDoc.data.get "role" :=
  ⟨rfl, _, _, rfl, rfl, fun h => JSVal.noConfusion h⟩

/-! ## The stamp `updatedAt` -/

theorem toFirestore_get_updatedAt (rt : Runtime) (r : UserModel) (now : Int) :
    (r.toFirestore rt now).get "updatedAt" = .str (isoString now) := by
  rw [toFirestore_eq]
  rfl

theorem subscriptionRoute_updated (rt : Runtime) (stored : Option Doc) (body : Obj)
    (tc tu t1 t2 t3 tw : Int) (written : Obj) (user : UserModel)
    (h : subscriptionRoute rt stored body tc tu t1 t2 t3 tw = .updated written user) :
    written = user.toFirestore rt tw := by
  unfold subscriptionRoute at h
  split at h
  · cases h
  · split at h
    · cases h
    · cases h
    · injection h with h1 h2
      rw [← h1, ← h2]

theorem extendAction_keeps_updatedAt (rt : Runtime) (r r' : UserModel) (duration : JSVal)
    (h : extendAction rt r duration = .ok r') : r'.updatedAt = r.updatedAt := by
  unfold extendAction at h
  split at h
  · simp only [bind, Except.bind, pure, Except.pure] at h
    split at h
    · cases h
    · injection h with h
      rw [← h]
  · injection h with h
    rw [← h]

/-- C10: the `'extend'` action does not stamp the record.  On the stored document of a
subscription that is active until 2030-01-01 and was last updated on 2024-01-01, the
route's `extend` by a year, run on 2024-01-31, moves the end date to 2031-01-01 and
returns the record with `updatedAt` still 2024-01-01, not the current time; only the
document handed to `update` carries the stamp of `toFirestore`.  On the same document
`cancel` and `activate` return the record with `updatedAt` equal to the current time. -/
theorem extend_leaves_updatedAt :
    (∃ written user,
      subscriptionRoute isoRuntime (some sampleActiveDoc)
        [("action", .str "extend"), ("duration", .str "yearly")]
        1706659200000 1706659200000 1706659200000 1706659200000 1706659200000
        1706659200000 = .updated written user ∧
      user.subscriptionEndDate = .str "2031-01-01T00:00:00.000Z" ∧
      user.updatedAt = .str "2024-01-01T00:00:00.000Z" ∧
      user.updatedAt ≠ .str (isoString 1706659200000) ∧
      written.get "updatedAt" = .str "2024-01-31T00:00:00.000Z") ∧
    (∃ written user,
      subscriptionRoute isoRuntime (some sampleActiveDoc) [("action", .str "cancel")]
        1706659200000 1706659200000 1706659200000 1706659200000 1706659200000
        1706659200000 = .updated written user ∧
      user.updatedAt = .str "2024-01-31T00:00:00.000Z") ∧
    (∃ written user,
      subscriptionRoute isoRuntime (some sampleActiveDoc)
        [("action", .str "activate"), ("type", .str "yearly"), ("duration", .str "yearly")]
        1706659200000 1706659200000 1706659200000 1706659200000 1706659200000
        1706659200000 = .updated written user ∧
      user.updatedAt = .str "2024-01-31T00:00:00.000Z") :=
  ⟨⟨_, _, rfl, rfl, rfl, fun h => absurd (JSVal.str.inj h) (by decide), rfl⟩,
    ⟨_, _, rfl, rfl⟩, ⟨_, _, rfl, rfl⟩⟩

/-! ## The e-mail pattern -/

theorem notSpaceAt_rmatch (x : List EmailSym) :
    notSpaceAt.rmatch x = true ↔ ∃ a, x = [a] ∧ (a = .dot ∨ a = .other) := by
  unfold notSpaceAt
  rw [show (RegularExpression.plus (RegularExpression.char EmailSym.dot)
      (RegularExpression.char EmailSym.other)) =
    RegularExpression.char EmailSym.dot + RegularExpression.char EmailSym.other from rfl,
    RegularExpression.add_rmatch_iff, RegularExpression.char_rmatch_iff,
    RegularExpression.char_rmatch_iff]
  constructor
  · rintro (h | h)
    · exact ⟨_, h, Or.inl rfl⟩
    · exact ⟨_, h, Or.inr rfl⟩
  · rintro ⟨a, h, rfl | rfl⟩
    · exact Or.inl h
    · exact Or.inr h

theorem star_notSpaceAt_rmatch (x : List EmailSym) :
    (RegularExpression.star notSpaceAt).rmatch x = true ↔
      ∀ a ∈ x, a = EmailSym.dot ∨ a = EmailSym.other := by
  rw [RegularExpression.star_rmatch_iff]
  constructor
  · rintro ⟨S, rfl, hS⟩ a ha
    rw [List.mem_flatten] at ha
    obtain ⟨t, ht, hat⟩ := ha
    obtain ⟨b, rfl, hb⟩ := (notSpaceAt_rmatch t).1 (hS t ht).2
    rw [List.mem_singleton] at hat
    exact hat ▸ hb
  · intro h
    refine ⟨x.map fun a => [a], ?_, ?_⟩
    · induction x with
      | nil => rfl
      | cons a x ih =>
        simp only [List.map_cons, List.flatten_cons, List.singleton_append, List.cons.injEq,
          true_and]
        exact ih fun b hb => h b (List.mem_cons_of_mem _ hb)
    · intro t ht
      rw [List.mem_map] at ht
      obtain ⟨a, ha, rfl⟩ := ht
      exact ⟨by simp, (notSpaceAt_rmatch _).2 ⟨a, rfl, h a ha⟩⟩

theorem oneOrMore_notSpaceAt_rmatch (x : List EmailSym) :
    (oneOrMore notSpaceAt).rmatch x = true ↔
      x ≠ [] ∧ ∀ a ∈ x, a = EmailSym.dot ∨ a = EmailSym.other := by
  unfold oneOrMore
  rw [show RegularExpression.comp notSpaceAt (RegularExpression.star notSpaceAt) =
    notSpaceAt * RegularExpression.star notSpaceAt from rfl, RegularExpression.mul_rmatch_iff]
  constructor
  · rintro ⟨t, u, rfl, ht, hu⟩
    obtain ⟨a, rfl, ha⟩ := (notSpaceAt_rmatch t).1 ht
    refine ⟨by simp, ?_⟩
    intro b hb
    rcases List.mem_append.1 hb with hb | hb
    · rw [List.mem_singleton] at hb
      exact hb ▸ ha
    · exact (star_notSpaceAt_rmatch u).1 hu b hb
  · rintro ⟨hne, h⟩
    cases x with
    | nil => exact absurd rfl hne
    | cons a x =>
      exact ⟨[a], x, rfl, (notSpaceAt_rmatch _).2 ⟨a, rfl, h a (List.mem_cons_self _ _)⟩,
        (star_notSpaceAt_rmatch x).2 fun b hb => h b (List.mem_cons_of_mem _ hb)⟩

theorem emailRegex_rmatch (w : List EmailSym) :
    emailRegex.rmatch w = true ↔
      ∃ x y z, w = x ++ EmailSym.at :: (y ++ EmailSym.dot :: z) ∧
        (x ≠ [] ∧ ∀ a ∈ x, a = EmailSym.dot ∨ a = EmailSym.other) ∧
        (y ≠ [] ∧ ∀ a ∈ y, a = EmailSym.dot ∨ a = EmailSym.other) ∧
        (z ≠ [] ∧ ∀ a ∈ z, a = EmailSym.dot ∨ a = EmailSym.other) := by
  unfold emailRegex
  simp only [show ∀ P Q : RegularExpression EmailSym, RegularExpression.comp P Q = P * Q from
    fun _ _ => rfl]
  simp only [RegularExpression.mul_rmatch_iff, RegularExpression.char_rmatch_iff,
    oneOrMore_notSpaceAt_rmatch]
  constructor
  · rintro ⟨x, u1, rfl, hx, t2, u2, rfl, rfl, y, u3, rfl, hy, t4, z, rfl, rfl, hz⟩
    exact ⟨x, y, z, by simp, hx, hy, hz⟩
  · rintro ⟨x, y, z, rfl, hx, hy, hz⟩
    exact ⟨x, _, rfl, hx, [EmailSym.at], _, rfl, rfl, y, _, rfl, hy, [EmailSym.dot], z, rfl,
      rfl, hz⟩

theorem classify_eq_at (c : Char) : classify c = .at ↔ c = '@' := by
  unfold classify
  constructor
  · intro h
    split at h
    · cases h
    · split at h
      · assumption
      · split at h <;> cases h
  · rintro rfl
    decide

theorem classify_eq_dot (c : Char) : classify c = .dot ↔ c = '.' := by
  unfold classify
  constructor
  · intro h
    split at h
    · cases h
    · split at h
      · cases h
      · split at h
        · assumption
        · cases h
  · rintro rfl
    decide

theorem classify_dot_or_other (c : Char) :
    (classify c = .dot ∨ classify c = .other) ↔ isJSWhitespace c = false ∧ c ≠ '@' := by
  unfold classify
  by_cases hw : isJSWhitespace c = true
  · simp [hw]
  · have hw' : isJSWhitespace c = false := by simpa using hw
    simp only [hw', Bool.false_eq_true, if_false, true_and]
    by_cases ha : c = '@'
    · simp [ha]
    · by_cases hd : c = '.'
      · simp [ha, hd]
      · simp [ha, hd]

theorem goodRun_map (cs : List Char) :
    ((cs.map classify) ≠ [] ∧
      ∀ a ∈ cs.map classify, a = EmailSym.dot ∨ a = EmailSym.other) ↔
      goodRun cs := by
  unfold goodRun
  constructor
  · rintro ⟨hne, h⟩
    refine ⟨fun e => hne (by rw [e]; rfl), fun c hc => ?_⟩
    exact (classify_dot_or_other c).1 (h _ (List.mem_map_of_mem _ hc))
  · rintro ⟨hne, h⟩
    refine ⟨fun e => hne (List.map_eq_nil_iff.1 e), fun a ha => ?_⟩
    obtain ⟨c, hc, rfl⟩ := List.mem_map.1 ha
    exact (classify_dot_or_other c).2 (h c hc)

theorem emailRegexTest_iff_split (s : String) :
    emailRegexTest s = true ↔
      ∃ cx cy cz, s.data = cx ++ '@' :: (cy ++ '.' :: cz) ∧
        goodRun cx ∧ goodRun cy ∧ goodRun cz := by
  unfold emailRegexTest
  rw [emailRegex_rmatch]
  constructor
  · rintro ⟨x, y, z, h, hx, hy, hz⟩
    obtain ⟨cx, r1, hs, rfl, h1⟩ := List.map_eq_append_iff.1 h
    obtain ⟨c1, r2, rfl, hc1, h2⟩ := List.map_eq_cons_iff.1 h1
    obtain ⟨cy, r3, rfl, rfl, h3⟩ := List.map_eq_append_iff.1 h2
    obtain ⟨c2, cz, rfl, hc2, rfl⟩ := List.map_eq_cons_iff.1 h3
    rw [classify_eq_at] at hc1
    rw [classify_eq_dot] at hc2
    subst hc1 hc2
    exact ⟨cx, cy, cz, hs, (goodRun_map cx).1 hx, (goodRun_map cy).1 hy, (goodRun_map cz).1 hz⟩
  · rintro ⟨cx, cy, cz, hs, hx, hy, hz⟩
    refine ⟨cx.map classify, cy.map classify, cz.map classify, ?_, (goodRun_map cx).2 hx,
      (goodRun_map cy).2 hy, (goodRun_map cz).2 hz⟩
    rw [hs]
    simp only [List.map_append, List.map_cons]
    rw [(classify_eq_at '@').2 rfl, (classify_eq_dot '.').2 rfl]

theorem not_at_of_goodRun (cs : List Char) (h : goodRun cs) :
    ∀ c ∈ cs, (c != '@') = true := by
  intro c hc
  simpa using (h.2 c hc).2

theorem count_at_of_goodRun (cs : List Char) (h : goodRun cs) : cs.count '@' = 0 :=
  List.count_eq_zero.2 fun hm => (h.2 _ hm).2 rfl

theorem shape_of_split (cs cx cy cz : List Char) (hs : cs = cx ++ '@' :: (cy ++ '.' :: cz))
    (hx : goodRun cx) (hy : goodRun cy) (hz : goodRun cz) :
    (∀ c ∈ cs, isJSWhitespace c = false) ∧ cs.count '@' = 1 ∧ localPart cs ≠ [] ∧
      '.' ∈ interior (domainPart cs) := by
  have hl : localPart cs = cx := by
    unfold localPart
    rw [hs, List.takeWhile_append_of_pos (not_at_of_goodRun cx hx),
      List.takeWhile_cons_of_neg (by decide), List.append_nil]
  have hd : domainPart cs = cy ++ '.' :: cz := by
    unfold domainPart
    rw [hs, List.dropWhile_append_of_pos (not_at_of_goodRun cx hx),
      List.dropWhile_cons_of_neg (by decide)]
    rfl
  refine ⟨?_, ?_, ?_, ?_⟩
  · intro c hc
    rw [hs] at hc
    simp only [List.mem_append, List.mem_cons] at hc
    rcases hc with h | rfl | h | rfl | h
    · exact (hx.2 c h).1
    · decide
    · exact (hy.2 c h).1
    · decide
    · exact (hz.2 c h).1
  · rw [hs]
    simp [List.count_append, List.count_cons, count_at_of_goodRun cx hx,
      count_at_of_goodRun cy hy, count_at_of_goodRun cz hz]
  · rw [hl]
    exact hx.1
  · rw [hd]
    unfold interior
    obtain ⟨hyne, -⟩ := hy
    cases cy with
    | nil => exact absurd rfl hyne
    | cons a cy' =>
      simp only [List.cons_append, List.drop_succ_cons, List.drop_zero]
      rw [List.dropLast_append_cons, List.dropLast_cons_of_ne_nil hz.1]
      exact List.mem_append_cons_self

theorem split_of_shape (cs : List Char) (hw : ∀ c ∈ cs, isJSWhitespace c = false)
    (hc : cs.count '@' = 1) (hl : localPart cs ≠ []) (hd : '.' ∈ interior (domainPart cs)) :
    ∃ cx cy cz, cs = cx ++ '@' :: (cy ++ '.' :: cz) ∧
      goodRun cx ∧ goodRun cy ∧ goodRun cz := by
  have hmem : '@' ∈ cs := List.count_pos_iff.1 (by omega)
  -- the string is its local part, the `@`, and its domain part
  have hdw : cs.dropWhile (fun c => c != '@') = '@' :: domainPart cs := by
    unfold domainPart
    cases h : cs.dropWhile (fun c => c != '@') with
    | nil =>
      have := List.dropWhile_eq_nil_iff.1 h '@' hmem
      simp at this
    | cons a t =>
      have hne : cs.dropWhile (fun c => c != '@') ≠ [] := by simp [h]
      have := List.head_dropWhile_not (fun c => c != '@') cs hne
      simp only [h, List.head_cons] at this
      have ha : a = '@' := by simpa using this
      rw [ha]
      rfl
  have hsplit : cs = localPart cs ++ '@' :: domainPart cs := by
    have := List.takeWhile_append_dropWhile (fun c => c != '@') cs
    rw [hdw] at this
    exact this.symm
  have hlp : ∀ c ∈ localPart cs, c ≠ '@' := by
    intro c hcm
    have := List.mem_takeWhile_imp hcm
    simpa using this
  have hcl : (localPart cs).count '@' = 0 := List.count_eq_zero.2 fun hm => hlp _ hm rfl
  have hcd : (domainPart cs).count '@' = 0 := by
    have h1 : cs.count '@' = (localPart cs).count '@' + ((domainPart cs).count '@' + 1) := by
      conv_lhs => rw [hsplit]
      simp [List.count_append, List.count_cons]
    omega
  have hdp : ∀ c ∈ domainPart cs, c ≠ '@' := by
    intro c hcm e
    exact List.count_eq_zero.1 hcd (e ▸ hcm)
  have hwl : ∀ c ∈ localPart cs, isJSWhitespace c = false := fun c hcm =>
    hw c (by rw [hsplit]; exact List.mem_append_left _ hcm)
  have hwd : ∀ c ∈ domainPart cs, isJSWhitespace c = false := fun c hcm =>
    hw c (by rw [hsplit]; exact List.mem_append_right _ (List.mem_cons_of_mem _ hcm))
  -- the domain part is a first character, an interior with a `.`, and a last character
  generalize domainPart cs = dp at hd hsplit hdp hwd
  unfold interior at hd
  cases dp with
  | nil => simp at hd
  | cons a m' =>
    simp only [List.drop_succ_cons, List.drop_zero] at hd
    rcases List.eq_nil_or_concat m' with rfl | ⟨m, b, rfl⟩
    · simp at hd
    · rw [List.concat_eq_append, List.dropLast_concat] at hd
      obtain ⟨m1, m2, rfl⟩ := List.append_of_mem hd
      refine ⟨localPart cs, a :: m1, m2 ++ [b], ?_,
        ⟨hl, fun c hcm => ⟨hwl c hcm, hlp c hcm⟩⟩,
        ⟨by simp, fun c hcm => ?_⟩, ⟨by simp, fun c hcm => ?_⟩⟩
      · rw [List.concat_eq_append] at hsplit
        simpa using hsplit
      · have : c ∈ a :: (m1 ++ '.' :: m2).concat b := by
          simp only [List.concat_eq_append, List.mem_cons, List.mem_append] at hcm ⊢
          tauto
        exact ⟨hwd c this, hdp c this⟩
      · have : c ∈ a :: (m1 ++ '.' :: m2).concat b := by
          simp only [List.concat_eq_append, List.mem_cons, List.mem_append] at hcm ⊢
          tauto
        exact ⟨hwd c this, hdp c this⟩

/-- C11: on every string `s`, `isValidEmail(s)` is true if and only if `s` has the shape
`local@domain.tld`: it contains no white space, it contains exactly one `@`, the part
before the `@` is not empty, and the part after the `@` contains a `.` that is neither
its first nor its last character.  Nothing else is enforced: `"a@b..c"` is accepted,
and `"bad"` is rejected. -/
theorem isValidEmail_iff_shape (rt : Runtime) (s : String) :
    (isValidEmail rt (.str s) = true ↔
      (∀ c ∈ s.data, isJSWhitespace c = false) ∧ s.data.count '@' = 1 ∧
        localPart s.data ≠ [] ∧ '.' ∈ interior (domainPart s.data)) ∧
    isValidEmail rt (.str "a@b..c") = true ∧
    isValidEmail rt (.str "bad") = false := by
  refine ⟨?_, rfl, rfl⟩
  have h : isValidEmail rt (.str s) = emailRegexTest s := rfl
  rw [h, emailRegexTest_iff_split]
  constructor
  · rintro ⟨cx, cy, cz, hs, hx, hy, hz⟩
    exact shape_of_split s.data cx cy cz hs hx hy hz
  · rintro ⟨hw, hc, hl, hd⟩
    exact split_of_shape s.data hw hc hl hd

end Leafora
